import Mathlib

/-!
Shallow embedding of the restaurant POS core: the order lifecycle /
table-state reconciliation routes (server/routes.ts), the Mongo-backed
storage layer (MongoStorage in server/storage.ts), and the digital-menu
synchronizer (server/digital-menu-sync.ts).

Modelling conventions:
* Monetary amounts, stock quantities and item quantities are JS numbers in
  the source (obtained through `parseFloat` on decimal strings); they are
  modelled as exact rationals (`ℚ`).  `Number.prototype.toFixed(2)` is
  modelled by `toFixed2` (round to the nearest hundredth, halves away from
  zero), and a stored decimal string is identified with its numeric value.
* Mongo collections are lists; `findOne` is `List.find?`,
  `findOneAndUpdate` (returnDocument "after") is `findAndUpdateFirst`,
  `deleteOne` is `deleteFirst`, `insertOne` appends.
* `randomUUID()` is modelled by a deterministic counter (`nextId`),
  producing the fresh ids "id-0", "id-1", ….
* JS truthiness tests on nullable strings (`if (x)`, `x || y`, `x ?? y`)
  are modelled by `jsOrNone` / `jsOr` / `Option.getD`.
* WebSocket broadcasts and console logging are pure side channels with no
  effect on stored state and are omitted.
-/

namespace RestaurantPOS

/-- `findOneAndUpdate` with `returnDocument: "after"`: update the first
element matching `p` with `f`, returning the updated element (if any) and
the updated collection. -/
def findAndUpdateFirst {α : Type} (p : α → Bool) (f : α → α) : List α → Option α × List α
  | [] => (none, [])
  | x :: xs =>
    if p x then (some (f x), f x :: xs)
    else
      let r := findAndUpdateFirst p f xs
      (r.1, x :: r.2)

/-- `deleteOne`: remove the first element matching `p`; the flag is
`deletedCount > 0`. -/
def deleteFirst {α : Type} (p : α → Bool) : List α → Bool × List α
  | [] => (false, [])
  | x :: xs =>
    if p x then (true, xs)
    else
      let r := deleteFirst p xs
      (r.1, x :: r.2)

/-- JS truthiness normalisation of a nullable string: `null`/`undefined`
and `""` are falsy. `jsOrNone x` is the value of `x || null`. -/
def jsOrNone : Option String → Option String
  | none => none
  | some v => if v == "" then none else some v

/-- `x || d` for a nullable string `x` and a (truthy) default `d`. -/
def jsOr (d : String) : Option String → String
  | none => d
  | some v => if v == "" then d else v

/-- `Number.prototype.toFixed(2)`: round to the nearest hundredth, halves
away from zero (identifying the produced decimal string with its value). -/
def toFixed2 (q : ℚ) : ℚ :=
  if 0 ≤ q then ((q * 100 + 1 / 2).floor : ℚ) / 100
  else -((((-q) * 100 + 1 / 2).floor : ℚ) / 100)

/-- `String(n).padStart(4, "0")`. -/
def padStart4 (s : String) : String :=
  if 4 ≤ s.length then s else String.mk (List.replicate (4 - s.length) '0') ++ s

/-- Invoice number generation: `INV-` + (count + 1) zero-padded to 4. -/
def mkInvoiceNumber (n : Nat) : String :=
  "INV-" ++ padStart4 (toString n)

/-- Fresh document id for `randomUUID()`. -/
def freshId (n : Nat) : String :=
  "id-" ++ toString n

/-! ## Entities (shared/schema.ts shapes, restricted to fields the core reads) -/

structure Table where
  id : String
  tableNumber : String
  floorId : Option String
  status : String
  currentOrderId : Option String
  deriving Repr, DecidableEq

structure Order where
  id : String
  tableId : Option String
  orderType : String
  status : String
  total : ℚ
  customerName : Option String
  customerPhone : Option String
  paymentMode : Option String
  deriving Repr, DecidableEq

structure OrderItem where
  id : String
  orderId : String
  menuItemId : String
  name : String
  quantity : ℚ
  price : ℚ
  notes : Option String
  status : String
  isVeg : Bool
  deriving Repr, DecidableEq

structure MenuItem where
  id : String
  name : String
  isVeg : Bool
  deriving Repr, DecidableEq

structure Floor where
  id : String
  name : String
  deriving Repr, DecidableEq

structure InventoryItem where
  id : String
  name : String
  currentStock : ℚ
  deriving Repr, DecidableEq

structure Recipe where
  id : String
  menuItemId : String
  createdAt : Nat
  deriving Repr, DecidableEq

structure RecipeIngredient where
  id : String
  recipeId : String
  inventoryItemId : String
  quantity : ℚ
  deriving Repr, DecidableEq

structure SplitPayment where
  person : ℚ
  amount : ℚ
  paymentMode : String
  deriving Repr, DecidableEq

structure InvoiceItem where
  name : String
  quantity : ℚ
  price : ℚ
  isVeg : Bool
  notes : Option String
  deriving Repr, DecidableEq

/-- Invoice record; `splitPayments` keeps the (injective) JSON-serialised
split list as the list itself, `none` standing for a stored `null`. -/
structure Invoice where
  invoiceNumber : String
  orderId : String
  tableNumber : Option String
  floorName : Option String
  customerName : Option String
  customerPhone : Option String
  subtotal : ℚ
  tax : ℚ
  discount : ℚ
  total : ℚ
  paymentMode : String
  splitPayments : Option (List SplitPayment)
  status : String
  items : List InvoiceItem
  deriving Repr, DecidableEq

structure Wastage where
  id : String
  inventoryItemId : String
  quantity : ℚ
  unit : String
  reason : String
  deriving Repr, DecidableEq

/-- Digital-menu `customers` collection document (only the fields the core
writes: `phoneNumber` key and the mirrored `tableStatus`). -/
structure Customer where
  phoneNumber : String
  tableStatus : String
  deriving Repr, DecidableEq

/-- The POS document store. -/
structure PosState where
  tables : List Table
  orders : List Order
  orderItems : List OrderItem
  menuItems : List MenuItem
  floors : List Floor
  inventoryItems : List InventoryItem
  recipes : List Recipe
  recipeIngredients : List RecipeIngredient
  invoices : List Invoice
  wastages : List Wastage
  customers : List Customer
  nextId : Nat
  deriving Repr, DecidableEq

/-! ## MongoStorage operations (server/storage.ts) -/

def getTable (s : PosState) (id : String) : Option Table :=
  s.tables.find? (fun t => t.id == id)

def updateTableStatus (s : PosState) (id status : String) : Option Table × PosState :=
  let r := findAndUpdateFirst (fun t => t.id == id) (fun t => { t with status := status }) s.tables
  (r.1, { s with tables := r.2 })

def updateTableOrder (s : PosState) (id : String) (orderId : Option String) : Option Table × PosState :=
  let r := findAndUpdateFirst (fun t => t.id == id) (fun t => { t with currentOrderId := orderId }) s.tables
  (r.1, { s with tables := r.2 })

def getFloor (s : PosState) (id : String) : Option Floor :=
  s.floors.find? (fun f => f.id == id)

def getOrder (s : PosState) (id : String) : Option Order :=
  s.orders.find? (fun o => o.id == id)

/-- `createOrder` input (post-zod; the schema defaults have been applied). -/
structure InsertOrder where
  tableId : Option String
  orderType : String
  status : String
  total : ℚ
  customerName : Option String
  customerPhone : Option String
  paymentMode : Option String
  deriving Repr, DecidableEq

def createOrder (s : PosState) (io : InsertOrder) : Order × PosState :=
  let o : Order :=
    { id := freshId s.nextId
      tableId := io.tableId
      orderType := io.orderType
      status := io.status
      total := io.total
      customerName := io.customerName
      customerPhone := io.customerPhone
      paymentMode := io.paymentMode }
  (o, { s with orders := s.orders ++ [o], nextId := s.nextId + 1 })

def updateOrderStatus (s : PosState) (id status : String) : Option Order × PosState :=
  let r := findAndUpdateFirst (fun o => o.id == id) (fun o => { o with status := status }) s.orders
  (r.1, { s with orders := r.2 })

def updateOrderTotal (s : PosState) (id : String) (total : ℚ) : Option Order × PosState :=
  let r := findAndUpdateFirst (fun o => o.id == id) (fun o => { o with total := total }) s.orders
  (r.1, { s with orders := r.2 })

def completeOrder (s : PosState) (id : String) : Option Order × PosState :=
  let r := findAndUpdateFirst (fun o => o.id == id) (fun o => { o with status := "completed" }) s.orders
  (r.1, { s with orders := r.2 })

def billOrder (s : PosState) (id : String) : Option Order × PosState :=
  let r := findAndUpdateFirst (fun o => o.id == id) (fun o => { o with status := "billed" }) s.orders
  (r.1, { s with orders := r.2 })

def checkoutOrder (s : PosState) (id : String) (paymentMode : Option String) : Option Order × PosState :=
  let r := findAndUpdateFirst (fun o => o.id == id)
    (fun o => { o with status := "paid", paymentMode := paymentMode }) s.orders
  (r.1, { s with orders := r.2 })

def getOrderItems (s : PosState) (orderId : String) : List OrderItem :=
  s.orderItems.filter (fun i => i.orderId == orderId)

def getOrderItem (s : PosState) (id : String) : Option OrderItem :=
  s.orderItems.find? (fun i => i.id == id)

/-- `createOrderItem` input (post-zod; defaults `status := "new"`,
`isVeg := true` applied by the parser). -/
structure InsertOrderItem where
  orderId : String
  menuItemId : String
  name : String
  quantity : ℚ
  price : ℚ
  notes : Option String
  status : String
  isVeg : Bool
  deriving Repr, DecidableEq

def createOrderItem (s : PosState) (it : InsertOrderItem) : OrderItem × PosState :=
  let oi : OrderItem :=
    { id := freshId s.nextId
      orderId := it.orderId
      menuItemId := it.menuItemId
      name := it.name
      quantity := it.quantity
      price := it.price
      notes := it.notes
      status := it.status
      isVeg := it.isVeg }
  (oi, { s with orderItems := s.orderItems ++ [oi], nextId := s.nextId + 1 })

def updateOrderItemStatus (s : PosState) (id status : String) : Option OrderItem × PosState :=
  let r := findAndUpdateFirst (fun i => i.id == id) (fun i => { i with status := status }) s.orderItems
  (r.1, { s with orderItems := r.2 })

def deleteOrderItem (s : PosState) (id : String) : Bool × PosState :=
  let r := deleteFirst (fun i => i.id == id) s.orderItems
  (r.1, { s with orderItems := r.2 })

def getInventoryItem (s : PosState) (id : String) : Option InventoryItem :=
  s.inventoryItems.find? (fun i => i.id == id)

def updateInventoryQuantity (s : PosState) (id : String) (quantity : ℚ) : Option InventoryItem × PosState :=
  let r := findAndUpdateFirst (fun i => i.id == id)
    (fun i => { i with currentStock := quantity }) s.inventoryItems
  (r.1, { s with inventoryItems := r.2 })

/-- `findOne({menuItemId}, {sort: {createdAt: -1}})`: the most recently
created matching recipe (first of the stable descending sort, i.e. the
earliest-inserted among the maxima). -/
def getRecipeByMenuItemId (s : PosState) (menuItemId : String) : Option Recipe :=
  (s.recipes.filter (fun r => r.menuItemId == menuItemId)).foldl
    (fun acc r =>
      match acc with
      | none => some r
      | some b => if b.createdAt < r.createdAt then some r else some b)
    none

def getRecipeIngredients (s : PosState) (recipeId : String) : List RecipeIngredient :=
  s.recipeIngredients.filter (fun g => g.recipeId == recipeId)

def getInvoices (s : PosState) : List Invoice :=
  s.invoices

def createInvoice (s : PosState) (inv : Invoice) : Invoice × PosState :=
  (inv, { s with invoices := s.invoices ++ [inv] })

/-- `createWastage` input (post-zod). -/
structure InsertWastage where
  inventoryItemId : String
  quantity : ℚ
  unit : String
  reason : String
  deriving Repr, DecidableEq

/-- `MongoStorage.createWastage`: builds the wastage record, deducts the
wastage quantity from the referenced inventory item when it exists, then
inserts the record. -/
def createWastage (s : PosState) (w : InsertWastage) : Wastage × PosState :=
  let wastage : Wastage :=
    { id := freshId s.nextId
      inventoryItemId := w.inventoryItemId
      quantity := w.quantity
      unit := w.unit
      reason := w.reason }
  let s1 := { s with nextId := s.nextId + 1 }
  let s2 :=
    match getInventoryItem s1 w.inventoryItemId with
    | some item => (updateInventoryQuantity s1 w.inventoryItemId (item.currentStock - w.quantity)).2
    | none => s1
  (wastage, { s2 with wastages := s2.wastages ++ [wastage] })

/-- One ingredient deduction of `deductInventoryForOrder`: subtract
`ingredient.quantity × item.quantity` from the referenced inventory item
(skipped when the inventory item does not exist). -/
def deductIngredientStep (qty : ℚ) (st : PosState) (ing : RecipeIngredient) : PosState :=
  match getInventoryItem st ing.inventoryItemId with
  | none => st
  | some item =>
    (updateInventoryQuantity st ing.inventoryItemId
      (item.currentStock - ing.quantity * qty)).2

/-- One inventory deduction step of `deductInventoryForOrder` for a single
order item: look up the menu item's most-recent recipe and subtract
`ingredient.quantity × item.quantity` for each of its ingredients. -/
def deductItemStep (s : PosState) (oi : OrderItem) : PosState :=
  match getRecipeByMenuItemId s oi.menuItemId with
  | none => s
  | some recipe =>
    (getRecipeIngredients s recipe.id).foldl (deductIngredientStep oi.quantity) s

/-- `MongoStorage.deductInventoryForOrder`: no floor at zero, the new stock
is written back verbatim. -/
def deductInventoryForOrder (s : PosState) (orderId : String) : PosState :=
  (getOrderItems s orderId).foldl deductItemStep s

/-! ## HTTP route handlers (server/routes.ts)

Each route is a function from the store (plus parsed inputs) to the updated
store and an abstract HTTP response. -/

/-- Abstract HTTP response: 200 with a JSON payload, 400, 404 or 500. -/
inductive Resp where
  | ok
  | badRequest (msg : String)
  | notFound (msg : String)
  | serverError (msg : String)
  deriving Repr, DecidableEq

/-- `orderItems.reduce((sum, item) => sum + parseFloat(item.price) * item.quantity, 0)`. -/
def itemsSubtotal (items : List OrderItem) : ℚ :=
  items.foldl (fun sum i => sum + i.price * i.quantity) 0

/-- The inline table-status derivation of POST /api/orders/:id/items and
PATCH /api/order-items/:id/status, as the status it writes (if any):
`allServed` / `allReady` / `hasPreparing` / `hasNew` checked in that
order, no write when no branch fires. -/
def deriveTableStatus (items : List OrderItem) : Option String :=
  if items.all (fun i => i.status == "served") then some "served"
  else if items.all (fun i => i.status == "ready" || i.status == "served") then some "ready"
  else if items.any (fun i => i.status == "preparing") then some "preparing"
  else if items.any (fun i => i.status == "new") then some "occupied"
  else none

/-- Apply the derived table status (a no-op when no branch fires). -/
def applyTableDerivation (s : PosState) (tableId : String) (items : List OrderItem) : PosState :=
  match deriveTableStatus items with
  | some st => (updateTableStatus s tableId st).2
  | none => s

/-- `DigitalMenuSyncService.updateCustomerTableStatus`: set `tableStatus`
on the customer document keyed by phone number. -/
def updateCustomerTableStatus (s : PosState) (customerPhone tableStatus : String) : PosState :=
  { s with
    customers :=
      (findAndUpdateFirst (fun c => c.phoneNumber == customerPhone)
        (fun c => { c with tableStatus := tableStatus }) s.customers).2 }

/-- `DigitalMenuSyncService.syncTableStatusFromPOSOrder`: mirror the POS
order's aggregated item status onto the digital-menu customer record. -/
def syncTableStatusFromPOSOrder (s : PosState) (posOrderId : String) : PosState :=
  match getOrder s posOrderId with
  | none => s
  | some posOrder =>
    match jsOrNone posOrder.customerPhone with
    | none => s
    | some phone =>
      let orderItems := getOrderItems s posOrderId
      if orderItems.isEmpty then s
      else
        let allServed := orderItems.all (fun i => i.status == "served")
        let anyReady := orderItems.any (fun i => i.status == "ready")
        let anyPreparing := orderItems.any (fun i => i.status == "preparing")
        let tableStatus :=
          if allServed then "served"
          else if anyReady && !anyPreparing
              && orderItems.all (fun i => i.status == "ready" || i.status == "served") then "ready"
          else if anyPreparing || anyReady then "preparing"
          else "occupied"
        updateCustomerTableStatus s phone tableStatus

/-- POST /api/orders/:id/items: create the item (from the request body),
recompute the path order's total over its current items, then derive the
table status when the path order is bound to a table.  There is no
existence check on the order id. -/
def postOrderItems (s : PosState) (pathId : String) (body : InsertOrderItem) : PosState × Resp :=
  let r1 := createOrderItem s body
  let s1 := r1.2
  let item := r1.1
  let orderItems := getOrderItems s1 pathId
  let total := itemsSubtotal orderItems
  let s2 := (updateOrderTotal s1 pathId (toFixed2 total)).2
  match getOrder s2 pathId with
  | some order =>
    match jsOrNone order.tableId with
    | some tableId => (applyTableDerivation s2 tableId orderItems, Resp.ok)
    | none => (s2, Resp.ok)
  | none =>
    let _ := item
    (s2, Resp.ok)

/-- PATCH /api/orders/:id/status. -/
def patchOrderStatus (s : PosState) (pathId status : String) : PosState × Resp :=
  let r := updateOrderStatus s pathId status
  match r.1 with
  | none => (r.2, Resp.notFound "Order not found")
  | some _ => (r.2, Resp.ok)

/-- POST /api/orders/:id/complete: terminal transition releasing the table. -/
def postOrderComplete (s : PosState) (pathId : String) : PosState × Resp :=
  let r := completeOrder s pathId
  match r.1 with
  | none => (r.2, Resp.notFound "Order not found")
  | some order =>
    match jsOrNone order.tableId with
    | some tableId =>
      let s1 := (updateTableOrder r.2 tableId none).2
      let s2 := (updateTableStatus s1 tableId "free").2
      (s2, Resp.ok)
    | none => (r.2, Resp.ok)

/-- POST /api/orders/:id/kot: `saved → sent_to_kitchen`. -/
def postOrderKot (s : PosState) (pathId : String) (print : Bool) : PosState × Resp :=
  let _ := print
  let r := updateOrderStatus s pathId "sent_to_kitchen"
  match r.1 with
  | none => (r.2, Resp.notFound "Order not found")
  | some _ => (r.2, Resp.ok)

/-- The invoice `floorName` expression
`tableInfo?.floorId ? (await storage.getFloor(tableInfo.floorId))?.name || null : null`. -/
def floorNameOf (s : PosState) (tableInfo : Option Table) : Option String :=
  match tableInfo with
  | some t =>
    match jsOrNone t.floorId with
    | some fid => jsOrNone ((getFloor s fid).map (fun f => f.name))
    | none => none
  | none => none

/-- The serialized order-item snapshot stored on invoices. -/
def toInvoiceItem (i : OrderItem) : InvoiceItem :=
  { name := i.name, quantity := i.quantity, price := i.price, isVeg := i.isVeg, notes := i.notes }

/-- POST /api/orders/:id/save: transition to `saved`; when `print` is
requested, also emit a `Saved` invoice from the current items. -/
def postOrderSave (s : PosState) (pathId : String) (print : Bool) : PosState × Resp :=
  let r := updateOrderStatus s pathId "saved"
  match r.1 with
  | none => (r.2, Resp.notFound "Order not found")
  | some order =>
    let s1 := r.2
    if print then
      let orderItems := getOrderItems s1 pathId
      let subtotal := itemsSubtotal orderItems
      let tax := subtotal * (5 / 100)
      let total := subtotal + tax
      let tableInfo :=
        match jsOrNone order.tableId with
        | some tid => getTable s1 tid
        | none => none
      let invoiceNumber := mkInvoiceNumber ((getInvoices s1).length + 1)
      let inv : Invoice :=
        { invoiceNumber := invoiceNumber
          orderId := order.id
          tableNumber := jsOrNone (tableInfo.map (fun t => t.tableNumber))
          floorName := floorNameOf s1 tableInfo
          customerName := order.customerName
          customerPhone := order.customerPhone
          subtotal := toFixed2 subtotal
          tax := toFixed2 tax
          discount := 0
          total := toFixed2 total
          paymentMode := jsOr "cash" order.paymentMode
          splitPayments := none
          status := "Saved"
          items := orderItems.map toInvoiceItem }
      ((createInvoice s1 inv).2, Resp.ok)
    else (s1, Resp.ok)

/-- POST /api/orders/:id/bill: transition to `billed` and always emit a
`Billed` invoice. -/
def postOrderBill (s : PosState) (pathId : String) (print : Bool) : PosState × Resp :=
  let _ := print
  let r := billOrder s pathId
  match r.1 with
  | none => (r.2, Resp.notFound "Order not found")
  | some order =>
    let s1 := r.2
    let orderItems := getOrderItems s1 pathId
    let subtotal := itemsSubtotal orderItems
    let tax := subtotal * (5 / 100)
    let total := subtotal + tax
    let tableInfo :=
      match jsOrNone order.tableId with
      | some tid => getTable s1 tid
      | none => none
    let invoiceNumber := mkInvoiceNumber ((getInvoices s1).length + 1)
    let inv : Invoice :=
      { invoiceNumber := invoiceNumber
        orderId := order.id
        tableNumber := jsOrNone (tableInfo.map (fun t => t.tableNumber))
        floorName := floorNameOf s1 tableInfo
        customerName := order.customerName
        customerPhone := order.customerPhone
        subtotal := toFixed2 subtotal
        tax := toFixed2 tax
        discount := 0
        total := toFixed2 total
        paymentMode := jsOr "cash" order.paymentMode
        splitPayments := none
        status := "Billed"
        items := orderItems.map toInvoiceItem }
    ((createInvoice s1 inv).2, Resp.ok)

/-- Parsed checkout request body (checkoutSchema). -/
structure CheckoutBody where
  paymentMode : Option String
  print : Bool
  splitPayments : Option (List SplitPayment)
  deriving Repr, DecidableEq

/-- `splitPayments.reduce((sum, split) => sum + split.amount, 0)`. -/
def splitSum (splits : List SplitPayment) : ℚ :=
  splits.foldl (fun a sp => a + sp.amount) 0

/-- The checkout tail after split-payment validation: mark paid, free the
table, mirror the customer table status, create the `Paid` invoice, then
best-effort inventory deduction. -/
def checkoutProceed (s : PosState) (pathId : String) (body : CheckoutBody)
    (orderItems : List OrderItem) (subtotal tax total : ℚ) : PosState × Resp :=
  let r := checkoutOrder s pathId body.paymentMode
  match r.1 with
  | none => (r.2, Resp.serverError "Failed to checkout order")
  | some checkedOutOrder =>
    let s1 := r.2
    let tir :=
      match jsOrNone checkedOutOrder.tableId with
      | some tid =>
        let t := getTable s1 tid
        let sa := (updateTableOrder s1 tid none).2
        let sb := (updateTableStatus sa tid "free").2
        (t, sb)
      | none => ((none : Option Table), s1)
    let tableInfo := tir.1
    let s2 := tir.2
    let s3 :=
      match jsOrNone checkedOutOrder.customerPhone with
      | some phone => updateCustomerTableStatus s2 phone "free"
      | none => s2
    let invoiceNumber := mkInvoiceNumber ((getInvoices s3).length + 1)
    let inv : Invoice :=
      { invoiceNumber := invoiceNumber
        orderId := checkedOutOrder.id
        tableNumber := jsOrNone (tableInfo.map (fun t => t.tableNumber))
        floorName := floorNameOf s3 tableInfo
        customerName := checkedOutOrder.customerName
        customerPhone := checkedOutOrder.customerPhone
        subtotal := toFixed2 subtotal
        tax := toFixed2 tax
        discount := 0
        total := toFixed2 total
        paymentMode := jsOr "cash" body.paymentMode
        splitPayments := body.splitPayments
        status := "Paid"
        items := orderItems.map toInvoiceItem }
    let s4 := (createInvoice s3 inv).2
    let s5 := deductInventoryForOrder s4 checkedOutOrder.id
    (s5, Resp.ok)

/-- POST /api/orders/:id/checkout: 404 on unknown order, then split-payment
validation (sum within 0.01 of the recomputed total, all amounts strictly
positive) before any write, then the checkout tail. -/
def postOrderCheckout (s : PosState) (pathId : String) (body : CheckoutBody) : PosState × Resp :=
  match getOrder s pathId with
  | none => (s, Resp.notFound "Order not found")
  | some _ =>
    let orderItems := getOrderItems s pathId
    let subtotal := itemsSubtotal orderItems
    let tax := subtotal * (5 / 100)
    let total := subtotal + tax
    let splitsGiven :=
      match body.splitPayments with
      | some sps => decide (0 < sps.length)
      | none => false
    if splitsGiven then
      let sps := body.splitPayments.getD []
      if (1 : ℚ) / 100 < |splitSum sps - total| then
        (s, Resp.badRequest "Split payment amounts must equal the total bill")
      else if sps.any (fun sp => decide (sp.amount ≤ 0)) then
        (s, Resp.badRequest "Split payment amounts must be positive")
      else checkoutProceed s pathId body orderItems subtotal tax total
    else checkoutProceed s pathId body orderItems subtotal tax total

/-- PATCH /api/order-items/:id/status: update the item, derive the table
status from all of the order's items, then best-effort mirror to the
digital-menu customer when the order carries a customer phone. -/
def patchOrderItemStatus (s : PosState) (itemId status : String) : PosState × Resp :=
  let r := updateOrderItemStatus s itemId status
  match r.1 with
  | none => (r.2, Resp.notFound "Order item not found")
  | some item =>
    let s1 := r.2
    let order := getOrder s1 item.orderId
    let s2 :=
      match order with
      | some o =>
        match jsOrNone o.tableId with
        | some tableId => applyTableDerivation s1 tableId (getOrderItems s1 item.orderId)
        | none => s1
      | none => s1
    let s3 :=
      match order with
      | some o =>
        match jsOrNone o.customerPhone with
        | some _ => syncTableStatusFromPOSOrder s2 item.orderId
        | none => s2
      | none => s2
    (s3, Resp.ok)

/-- DELETE /api/order-items/:id: 404 on unknown item, else delete and
recompute the owning order's total (no table-status derivation). -/
def deleteOrderItemRoute (s : PosState) (itemId : String) : PosState × Resp :=
  match getOrderItem s itemId with
  | none => (s, Resp.notFound "Order item not found")
  | some item =>
    let r := deleteOrderItem s itemId
    if !r.1 then (r.2, Resp.serverError "Failed to delete order item")
    else
      let s1 := r.2
      let orderItems := getOrderItems s1 item.orderId
      let total := itemsSubtotal orderItems
      let s2 := (updateOrderTotal s1 item.orderId (toFixed2 total)).2
      (s2, Resp.ok)

/-- POST /api/wastage: 404 on unknown inventory item, reject when the
deducted stock would go negative, else write the deducted stock and create
the wastage record (which itself deducts again, see
`MongoStorage.createWastage`). -/
def postWastage (s : PosState) (body : InsertWastage) : PosState × Resp :=
  match getInventoryItem s body.inventoryItemId with
  | none => (s, Resp.notFound "Inventory item not found")
  | some inventoryItem =>
    let newStock := inventoryItem.currentStock - body.quantity
    if newStock < 0 then (s, Resp.badRequest "Insufficient stock for wastage entry")
    else
      let s1 := (updateInventoryQuantity s body.inventoryItemId newStock).2
      let s2 := (createWastage s1 body).2
      (s2, Resp.ok)

/-! ## Digital Menu Synchronizer (server/digital-menu-sync.ts)

External digital-menu orders are embedded in `digital_menu_customer_orders`
documents.  Numeric fields guarded by `|| 0` in the source are modelled as
plain rationals (for a present rational value `q`, `q || 0` is `q` when
`q ≠ 0` and `0 = q` otherwise, so the guard is the identity). -/

structure DigitalOrderItem where
  menuItemName : String
  quantity : ℚ
  price : ℚ
  notes : Option String
  spiceLevel : Option String
  deriving Repr, DecidableEq

/-- An embedded external order.  `oid` is the embedded Mongo `_id` (absent
for some records, in which case the synthetic identifier falls back to
`docId_orderDate`). -/
structure DigitalOrder where
  oid : Option String
  orderDate : String
  status : String
  paymentStatus : Option String
  paymentMethod : Option String
  syncedToPOS : Bool
  posOrderId : Option String
  tableNumber : Option String
  floorNumber : Option String
  items : List DigitalOrderItem
  total : ℚ
  tax : ℚ
  deriving Repr, DecidableEq

structure CustomerDoc where
  docId : String
  customerName : Option String
  customerPhone : Option String
  orders : List DigitalOrder
  deriving Repr, DecidableEq

/-- Synchronizer state: the POS store, the external collection, and the
in-memory processed-id set plus the two last-observed status maps. -/
structure SyncState where
  pos : PosState
  customerDocs : List CustomerDoc
  processed : List String
  statusMap : List (String × String)
  payMap : List (String × String)
  deriving Repr, DecidableEq

def mapGet (m : List (String × String)) (k : String) : Option String :=
  (m.find? (fun kv => kv.1 == k)).map (fun kv => kv.2)

def mapSet (m : List (String × String)) (k v : String) : List (String × String) :=
  if m.any (fun kv => kv.1 == k) then
    m.map (fun kv => if kv.1 == k then (k, v) else kv)
  else m ++ [(k, v)]

/-- `order._id?.toString() || customerDoc._id.toString() + "_" + order.orderDate`. -/
def syntheticId (doc : CustomerDoc) (d : DigitalOrder) : String :=
  match jsOrNone d.oid with
  | some i => i
  | none => doc.docId ++ "_" ++ d.orderDate

/-- `digitalOrder.paymentStatus || "pending"`. -/
def currentPaymentStatusOf (d : DigitalOrder) : String :=
  jsOr "pending" d.paymentStatus

/-- `DigitalMenuSyncService.findTableByNumberAndFloor`: prefer the table on
the named floor, else warn and fall back to the first table with that
number on any floor. -/
def findTableByNumberAndFloor (s : PosState) (tableNumber : String)
    (floorNumber : Option String) : Option Table :=
  let viaFloor : Option Table :=
    match jsOrNone floorNumber with
    | some fn =>
      match s.floors.find? (fun f => f.name.toLower == fn.toLower) with
      | some floor =>
        s.tables.find? (fun t => t.tableNumber == tableNumber && t.floorId == some floor.id)
      | none => none
    | none => none
  match viaFloor with
  | some t => some t
  | none => (s.tables.filter (fun t => t.tableNumber == tableNumber)).head?

/-- `DigitalMenuSyncService.findMenuItemByName` (case-insensitive). -/
def findMenuItemByName (s : PosState) (name : String) : Option MenuItem :=
  s.menuItems.find? (fun m => m.name.toLower == name.toLower)

/-- The notes concatenation
`[item.notes, item.spiceLevel ? "Spice: " + sl : null].filter(Boolean).join(" | ") || null`. -/
def joinNotes (notes spiceLevel : Option String) : Option String :=
  let parts := [jsOrNone notes, (jsOrNone spiceLevel).map (fun sl => "Spice: " ++ sl)]
  jsOrNone (some (String.intercalate " | " (parts.filterMap id)))

/-- `DigitalMenuSyncService.convertAndCreatePOSOrder`: resolve the table,
create the native order (`billed` when the external order reports itself
paid, else `sent_to_kitchen`), attach converted items, set the order total
from the external total (mismatch with the recomputed total only warns),
and mirror the customer table status to `occupied`. Returns the created
native order id. -/
def convertAndCreatePOSOrder (pos : PosState) (d : DigitalOrder)
    (customerName customerPhone : Option String) : String × PosState :=
  let tr :=
    match jsOrNone d.tableNumber with
    | some tn =>
      match findTableByNumberAndFloor pos tn d.floorNumber with
      | some table =>
        let p1 := if table.status == "free" then (updateTableStatus pos table.id "occupied").2 else pos
        ((some table.id : Option String), p1)
      | none => ((none : Option String), pos)
    | none => ((none : Option String), pos)
  let tableId := tr.1
  let pos1 := tr.2
  let orderStatus := if d.paymentStatus == some "paid" then "billed" else "sent_to_kitchen"
  let cr := createOrder pos1
    { tableId := tableId
      orderType := "dine-in"
      status := orderStatus
      total := 0
      customerName := customerName
      customerPhone := customerPhone
      paymentMode := jsOrNone d.paymentMethod }
  let posOrder := cr.1
  let pos2 := cr.2
  let pos3 :=
    match jsOrNone tableId with
    | some tid => (updateTableOrder pos2 tid (some posOrder.id)).2
    | none => pos2
  let ir := d.items.foldl
    (fun (acc : PosState × ℚ) item =>
      let menuItem := findMenuItemByName acc.1 item.menuItemName
      let sub := acc.2 + item.price * item.quantity
      let p := (createOrderItem acc.1
        { orderId := posOrder.id
          menuItemId := jsOr "unknown" (menuItem.map (fun m => m.id))
          name := item.menuItemName
          quantity := item.quantity
          price := toFixed2 item.price
          notes := joinNotes item.notes item.spiceLevel
          status := "new"
          isVeg := (menuItem.map (fun m => m.isVeg)).getD true }).2
      (p, sub))
    (pos3, 0)
  let pos4 := ir.1
  let orderTotal := toFixed2 d.total
  let pos5 := (updateOrderTotal pos4 posOrder.id orderTotal).2
  let pos6 :=
    match jsOrNone customerPhone with
    | some phone => updateCustomerTableStatus pos5 phone "occupied"
    | none => pos5
  (posOrder.id, pos6)

/-- The `updateOne` marking an embedded external order as synced: filter on
the document id and an embedded order with the same `_id`, positional `$`
update of the first matching embedded order. -/
def markSynced (docs : List CustomerDoc) (docId : String) (oid : Option String)
    (posOrderId : String) : List CustomerDoc :=
  (findAndUpdateFirst
    (fun c => c.docId == docId && c.orders.any (fun o => o.oid == oid))
    (fun c =>
      { c with
        orders :=
          (findAndUpdateFirst (fun o => o.oid == oid)
            (fun o => { o with syncedToPOS := true, posOrderId := some posOrderId })
            c.orders).2 })
    docs).2

/-- `pending/confirmed → new`, `preparing → preparing`,
`completed/cancelled → served`, anything else falls back to `new`
(`statusMapping[digitalOrder.status] || "new"`). -/
def statusMapping (s : String) : String :=
  if s == "pending" then "new"
  else if s == "confirmed" then "new"
  else if s == "preparing" then "preparing"
  else if s == "completed" then "served"
  else if s == "cancelled" then "served"
  else "new"

/-- `DigitalMenuSyncService.autoCheckoutAndGenerateInvoice`: recompute the
totals from the native order's items, check out (payment mode from the
external order, default `cash`, lower-cased), free the table, mirror the
customer status to `free`, and create the `Paid` invoice. -/
def autoCheckoutAndGenerateInvoice (st : SyncState) (d : DigitalOrder)
    (posOrder : Order) : SyncState :=
  let orderItems := getOrderItems st.pos posOrder.id
  let subtotal := itemsSubtotal orderItems
  let tax := subtotal * (5 / 100)
  let total := subtotal + tax
  let paymentMode := (jsOr "cash" d.paymentMethod).toLower
  let r := checkoutOrder st.pos posOrder.id (some paymentMode)
  match r.1 with
  | none => { st with pos := r.2 }
  | some checkedOutOrder =>
    let pos1 := r.2
    let tir :=
      match jsOrNone checkedOutOrder.tableId with
      | some tid =>
        let t := getTable pos1 tid
        let pa := (updateTableOrder pos1 tid none).2
        let pb := (updateTableStatus pa tid "free").2
        (t, pb)
      | none => ((none : Option Table), pos1)
    let tableInfo := tir.1
    let pos2 := tir.2
    let pos3 :=
      match jsOrNone checkedOutOrder.customerPhone with
      | some phone => updateCustomerTableStatus pos2 phone "free"
      | none => pos2
    let invoiceNumber := mkInvoiceNumber ((getInvoices pos3).length + 1)
    let inv : Invoice :=
      { invoiceNumber := invoiceNumber
        orderId := checkedOutOrder.id
        tableNumber := jsOrNone (tableInfo.map (fun t => t.tableNumber))
        floorName := floorNameOf pos3 tableInfo
        customerName := checkedOutOrder.customerName
        customerPhone := checkedOutOrder.customerPhone
        subtotal := toFixed2 subtotal
        tax := toFixed2 tax
        discount := 0
        total := toFixed2 total
        paymentMode := paymentMode
        splitPayments := none
        status := "Paid"
        items := orderItems.map toInvoiceItem }
    { st with pos := (createInvoice pos3 inv).2 }

/-- The `invoice_generated` special status, underscore or space variant. -/
def isInvoiceVariant (x : String) : Bool :=
  x == "invoice_generated" || x == "invoice generated"

/-- One iteration of the item-status propagation loop: set the item (by
id) to the mapped status unless it already carries it. -/
def applyItemStatusLoop (ns : String) (p : PosState) (it : OrderItem) : PosState :=
  if it.status != ns then (updateOrderItemStatus p it.id ns).2 else p

/-- `DigitalMenuSyncService.updatePOSOrderStatus`: dispatch to
auto-checkout on an `invoice_generated` status or payment status
(underscore or space variant), else map the external status to an item
status and apply it to every item of the linked native order. -/
def updatePOSOrderStatus (st : SyncState) (d : DigitalOrder) : SyncState :=
  match jsOrNone d.posOrderId with
  | none => st
  | some pid =>
    match getOrder st.pos pid with
    | none => st
    | some posOrder =>
      let paymentStatus := jsOr "" d.paymentStatus
      let orderStatus := d.status
      if isInvoiceVariant paymentStatus || isInvoiceVariant orderStatus then
        autoCheckoutAndGenerateInvoice st d posOrder
      else
        let newItemStatus := statusMapping d.status
        let orderItems := getOrderItems st.pos posOrder.id
        let pos := orderItems.foldl (applyItemStatusLoop newItemStatus) st.pos
        { st with pos := pos }

/-- Ingest-pass handling of one embedded external order: skip when already
synced, when the status is neither `pending` nor `confirmed`, or when the
synthetic id was already processed; otherwise mark processed and record
the observed statuses first, convert into a native order, and persist the
synced flag.  (The conversion cannot fail in this embedding, so the
un-mark-on-throw catch branch is unreachable.)  Returns the new state and
the `synced` increment. -/
def ingestOrder (st : SyncState) (doc : CustomerDoc) (d : DigitalOrder) : SyncState × Nat :=
  if d.syncedToPOS then (st, 0)
  else if d.status != "pending" && d.status != "confirmed" then (st, 0)
  else
    let oid := syntheticId doc d
    if st.processed.contains oid then (st, 0)
    else
      let st1 :=
        { st with
          processed := st.processed ++ [oid]
          statusMap := mapSet st.statusMap oid d.status
          payMap := mapSet st.payMap oid (currentPaymentStatusOf d) }
      let cr := convertAndCreatePOSOrder st1.pos d doc.customerName doc.customerPhone
      let st2 := { st1 with pos := cr.2 }
      let st3 := { st2 with customerDocs := markSynced st2.customerDocs doc.docId d.oid cr.1 }
      (st3, 1)

/-- `previousStatus && previousStatus !== digitalOrder.status` (JS
truthiness of the cached observation). -/
def obsStatusChanged (st : SyncState) (oid : String) (d : DigitalOrder) : Bool :=
  match jsOrNone (mapGet st.statusMap oid) with
  | some p => p != d.status
  | none => false

/-- `previousPaymentStatus && previousPaymentStatus !== currentPaymentStatus`. -/
def obsPayChanged (st : SyncState) (oid : String) (d : DigitalOrder) : Bool :=
  match jsOrNone (mapGet st.payMap oid) with
  | some p => p != currentPaymentStatusOf d
  | none => false

/-- Update-pass handling of one embedded external order: catch-up
auto-checkout when the payment status is an `invoice_generated` variant
and the linked native order is not yet paid/billed; else propagate a
status/payment-status change since the last observation; else backfill
missing observations. -/
def updateOrderObservation (st : SyncState) (doc : CustomerDoc) (d : DigitalOrder) : SyncState × Nat :=
  if !d.syncedToPOS then (st, 0)
  else
    let oid := syntheticId doc d
    let previousStatus := mapGet st.statusMap oid
    let previousPay := mapGet st.payMap oid
    let currentPay := currentPaymentStatusOf d
    let statusChanged := obsStatusChanged st oid d
    let payChanged := obsPayChanged st oid d
    let needsCheckout :=
      isInvoiceVariant currentPay && (jsOrNone d.posOrderId).isSome
    let checkoutTaken :=
      needsCheckout &&
        (match jsOrNone d.posOrderId with
         | some pid =>
           match getOrder st.pos pid with
           | some po => po.status != "paid" && po.status != "billed"
           | none => false
         | none => false)
    if checkoutTaken then (updatePOSOrderStatus st d, 1)
    else if statusChanged || payChanged then
      let st1 := updatePOSOrderStatus st d
      let st2 :=
        { st1 with
          statusMap := mapSet st1.statusMap oid d.status
          payMap := mapSet st1.payMap oid currentPay }
      (st2, 1)
    else if (jsOrNone previousStatus).isNone || (jsOrNone previousPay).isNone then
      ({ st with
          statusMap := mapSet st.statusMap oid d.status
          payMap := mapSet st.payMap oid currentPay }, 0)
    else (st, 0)

/-- Fold a per-order handler over the snapshot of customer documents with a
non-empty orders array (the `find({"orders": {$exists: true, $ne: []}})`
query), accumulating a counter. -/
def runPass (handler : SyncState → CustomerDoc → DigitalOrder → SyncState × Nat)
    (st : SyncState) (docs : List CustomerDoc) : SyncState × Nat :=
  (docs.filter (fun c => !c.orders.isEmpty)).foldl
    (fun acc doc =>
      doc.orders.foldl
        (fun acc2 d =>
          let r := handler acc2.1 doc d
          (r.1, acc2.2 + r.2))
        acc)
    (st, 0)

/-- `DigitalMenuSyncService.syncOrders`: the ingest pass over a snapshot of
the external collection, then the update pass over a fresh snapshot.
Returns `synced + updated`. -/
def syncOrders (st : SyncState) : SyncState × Nat :=
  let ing := runPass ingestOrder st st.customerDocs
  let upd := runPass updateOrderObservation ing.1 ing.1.customerDocs
  (upd.1, ing.2 + upd.2)

/-! ## General lemmas about the Mongo-style list operations -/

theorem fst_findAndUpdateFirst {α : Type} (p : α → Bool) (f : α → α) (l : List α) :
    (findAndUpdateFirst p f l).1 = (l.find? p).map f := by
  induction l with
  | nil => simp [findAndUpdateFirst]
  | cons x xs ih =>
    by_cases hx : p x
    · simp [findAndUpdateFirst, hx, List.find?_cons_of_pos]
    · simp [findAndUpdateFirst, hx, List.find?_cons_of_neg, ih]

theorem find?_findAndUpdateFirst {α : Type} (p : α → Bool) (f : α → α) (l : List α)
    (hpf : ∀ a, p a = true → p (f a) = true) :
    ((findAndUpdateFirst p f l).2).find? p = (l.find? p).map f := by
  induction l with
  | nil => simp [findAndUpdateFirst]
  | cons x xs ih =>
    by_cases hx : p x
    · simp [findAndUpdateFirst, hx, List.find?_cons_of_pos, hpf x hx]
    · simp [findAndUpdateFirst, hx, List.find?_cons_of_neg, ih]

theorem findAndUpdateFirst_of_find?_eq_none {α : Type} (p : α → Bool) (f : α → α) (l : List α)
    (h : l.find? p = none) : findAndUpdateFirst p f l = (none, l) := by
  induction l with
  | nil => simp [findAndUpdateFirst]
  | cons x xs ih =>
    rw [List.find?_eq_none] at h
    have hx : p x = false := by
      have := h x (by simp)
      simpa using this
    have hxs : xs.find? p = none := by
      rw [List.find?_eq_none]
      intro a ha
      exact h a (by simp [ha])
    simp [findAndUpdateFirst, hx, ih hxs]

theorem find?_findAndUpdateFirst_of_ne {α : Type} (p q : α → Bool) (f : α → α) (l : List α)
    (hpq : ∀ a, p a = true → q a = false) (hf : ∀ a, q (f a) = q a) :
    ((findAndUpdateFirst p f l).2).find? q = l.find? q := by
  induction l with
  | nil => simp [findAndUpdateFirst]
  | cons x xs ih =>
    by_cases hx : p x
    · have hqx : q x = false := hpq x hx
      have hqfx : q (f x) = false := by rw [hf]; exact hqx
      simp [findAndUpdateFirst, hx, List.find?_cons_of_neg, hqx, hqfx]
    · by_cases hq : q x
      · simp [findAndUpdateFirst, hx, List.find?_cons_of_pos, hq]
      · simp [findAndUpdateFirst, hx, List.find?_cons_of_neg, hq, ih]

theorem length_findAndUpdateFirst {α : Type} (p : α → Bool) (f : α → α) (l : List α) :
    ((findAndUpdateFirst p f l).2).length = l.length := by
  induction l with
  | nil => simp [findAndUpdateFirst]
  | cons x xs ih =>
    by_cases hx : p x
    · simp [findAndUpdateFirst, hx]
    · simp [findAndUpdateFirst, hx, ih]

theorem mem_findAndUpdateFirst {α : Type} (p : α → Bool) (f : α → α) (l : List α) (a : α)
    (h : l.find? p = some a) : f a ∈ (findAndUpdateFirst p f l).2 := by
  induction l with
  | nil => simp at h
  | cons x xs ih =>
    by_cases hx : p x
    · rw [List.find?_cons_of_pos _ hx] at h
      cases h
      simp [findAndUpdateFirst, hx]
    · rw [List.find?_cons_of_neg _ hx] at h
      simp [findAndUpdateFirst, hx]
      exact Or.inr (ih h)

theorem deleteFirst_fst_of_found {α : Type} (p : α → Bool) (l : List α) (a : α)
    (h : l.find? p = some a) : (deleteFirst p l).1 = true := by
  induction l with
  | nil => simp at h
  | cons x xs ih =>
    by_cases hx : p x
    · simp [deleteFirst, hx]
    · rw [List.find?_cons_of_neg _ hx] at h
      simp [deleteFirst, hx, ih h]

/-- Folding a state-transformer over a list preserves any invariant that
each step preserves. -/
theorem foldl_preserves {α β : Type} {f : β → α → β} {P : β → Prop}
    (h : ∀ b a, P b → P (f b a)) : ∀ (l : List α) (b : β), P b → P (l.foldl f b) := by
  intro l
  induction l with
  | nil => intro b hb; simpa using hb
  | cons x xs ih => intro b hb; exact ih (f b x) (h b x hb)

/-! ## State-component preservation lemmas -/

theorem orderItems_updateOrderTotal (s : PosState) (id : String) (t : ℚ) :
    ((updateOrderTotal s id t).2).orderItems = s.orderItems := rfl

theorem orders_updateTableStatus (s : PosState) (id st : String) :
    ((updateTableStatus s id st).2).orders = s.orders := rfl

theorem orderItems_updateTableStatus (s : PosState) (id st : String) :
    ((updateTableStatus s id st).2).orderItems = s.orderItems := rfl

theorem orders_applyTableDerivation (s : PosState) (tid : String) (items : List OrderItem) :
    (applyTableDerivation s tid items).orders = s.orders := by
  unfold applyTableDerivation
  cases deriveTableStatus items <;> rfl

theorem orderItems_applyTableDerivation (s : PosState) (tid : String) (items : List OrderItem) :
    (applyTableDerivation s tid items).orderItems = s.orderItems := by
  unfold applyTableDerivation
  cases deriveTableStatus items <;> rfl

theorem getOrder_updateOrderTotal (s : PosState) (id : String) (t : ℚ) :
    getOrder (updateOrderTotal s id t).2 id
      = (getOrder s id).map (fun o => { o with total := t }) := by
  unfold getOrder updateOrderTotal
  exact find?_findAndUpdateFirst _ _ _ (fun a ha => ha)

/-! ## C1: the order-total invariant -/

/-- The invariant of claim C1 for one order id: the stored total is the
two-decimal formatting of Σ price × quantity over the order's current
items (vacuously true when the order does not exist). -/
def orderTotalInvariant (s : PosState) (oid : String) : Bool :=
  match getOrder s oid with
  | some o => o.total == toFixed2 (itemsSubtotal (getOrderItems s oid))
  | none => true

theorem orderTotalInvariant_congr (s s2 : PosState) (oid : String)
    (ho : s2.orders = s.orders) (hi : s2.orderItems = s.orderItems) :
    orderTotalInvariant s2 oid = orderTotalInvariant s oid := by
  unfold orderTotalInvariant getOrder getOrderItems
  rw [ho, hi]

/-- After writing back `toFixed2` of the recomputed items subtotal, the
total invariant holds. -/
theorem orderTotalInvariant_after_recompute (s : PosState) (oid : String) :
    orderTotalInvariant
      (updateOrderTotal s oid (toFixed2 (itemsSubtotal (getOrderItems s oid)))).2 oid = true := by
  unfold orderTotalInvariant
  rw [getOrder_updateOrderTotal]
  have hitems : getOrderItems (updateOrderTotal s oid
      (toFixed2 (itemsSubtotal (getOrderItems s oid)))).2 oid = getOrderItems s oid := rfl
  rw [hitems]
  cases h : getOrder s oid with
  | none => simp
  | some o => simp

/-- C1: immediately after the add-item route (invoked for the order the new
item belongs to) and immediately after the delete-item route, the affected
order's stored total equals the two-decimal formatting of
Σ price × quantity over its current items. -/
theorem c1_total_invariant_after_item_ops (s : PosState) (pathId : String)
    (body : InsertOrderItem) (itemId : String) (it : OrderItem)
    (hbody : body.orderId = pathId)
    (hit : getOrderItem s itemId = some it) :
    orderTotalInvariant (postOrderItems s pathId body).1 pathId = true ∧
    orderTotalInvariant (deleteOrderItemRoute s itemId).1 it.orderId = true := by
  constructor
  · have base := orderTotalInvariant_after_recompute (createOrderItem s body).2 pathId
    simp only [postOrderItems]
    split
    · split
      · rw [orderTotalInvariant_congr _ _ _ (orders_applyTableDerivation _ _ _)
          (orderItems_applyTableDerivation _ _ _)]
        exact base
      · exact base
    · exact base
  · have hdel : (deleteOrderItem s itemId).1 = true := by
      unfold deleteOrderItem
      exact deleteFirst_fst_of_found _ _ _ hit
    unfold deleteOrderItemRoute
    rw [hit]
    simp only [hdel, Bool.not_true, Bool.false_eq_true, if_false]
    exact orderTotalInvariant_after_recompute (deleteOrderItem s itemId).2 it.orderId

/-! ## Sample stores for the witness theorems -/

def sampleTable : Table :=
  { id := "t1", tableNumber := "5", floorId := none, status := "occupied", currentOrderId := some "o1" }

def sampleOrder : Order :=
  { id := "o1", tableId := some "t1", orderType := "dine-in", status := "saved", total := 99,
    customerName := none, customerPhone := none, paymentMode := none }

def sampleItem : OrderItem :=
  { id := "i1", orderId := "o1", menuItemId := "m1", name := "Coffee", quantity := 1, price := 99,
    notes := none, status := "new", isVeg := true }

def sampleBody : InsertOrderItem :=
  { orderId := "o1", menuItemId := "m2", name := "Cake", quantity := 2, price := 199,
    notes := none, status := "new", isVeg := true }

def sampleState : PosState :=
  { tables := [sampleTable], orders := [sampleOrder], orderItems := [sampleItem],
    menuItems := [], floors := [], inventoryItems := [], recipes := [], recipeIngredients := [],
    invoices := [], wastages := [], customers := [], nextId := 0 }

/-- Witness for C1 at the sample store. -/
theorem c1_total_invariant_after_item_ops_witness :
    (sampleBody.orderId = "o1" ∧ getOrderItem sampleState "i1" = some sampleItem) ∧
    (orderTotalInvariant (postOrderItems sampleState "o1" sampleBody).1 "o1" = true ∧
      orderTotalInvariant (deleteOrderItemRoute sampleState "i1").1 sampleItem.orderId = true) :=
  ⟨⟨by decide, by decide⟩,
    c1_total_invariant_after_item_ops sampleState "o1" sampleBody "i1" sampleItem
      (by decide) (by decide)⟩

/-! ## C2: table-status derivation -/

/-- The table-status derivation as the specification words it: all items
served ⇒ served; else all ready or served ⇒ ready; else some preparing ⇒
preparing; else some new ⇒ occupied; with no items (and in the residual
case where no clause fires) the current status is left unchanged. -/
def specTableStatus (items : List OrderItem) (current : String) : String :=
  if items.isEmpty then current
  else if items.all (fun i => i.status == "served") then "served"
  else if items.all (fun i => i.status == "ready" || i.status == "served") then "ready"
  else if items.any (fun i => i.status == "preparing") then "preparing"
  else if items.any (fun i => i.status == "new") then "occupied"
  else current

theorem getTable_updateTableStatus (s : PosState) (id st : String) :
    getTable (updateTableStatus s id st).2 id
      = (getTable s id).map (fun t => { t with status := st }) := by
  unfold getTable updateTableStatus
  exact find?_findAndUpdateFirst _ _ _ (fun a ha => ha)

/-- On the reachable (non-empty) item lists, the code's derivation agrees
with the specification's precedence, the no-fire case leaving the table
unchanged. -/
theorem getTable_applyTableDerivation (s : PosState) (tid : String) (items : List OrderItem)
    (t : Table) (ht : getTable s tid = some t) (hne : items ≠ []) :
    getTable (applyTableDerivation s tid items) tid
      = some { t with status := specTableStatus items t.status } := by
  have hempty : items.isEmpty = false := by
    cases items with
    | nil => exact absurd rfl hne
    | cons a l => rfl
  by_cases h1 : items.all (fun i => i.status == "served")
  · simp [applyTableDerivation, deriveTableStatus, specTableStatus, hempty, h1,
      getTable_updateTableStatus, ht]
  · by_cases h2 : items.all (fun i => i.status == "ready" || i.status == "served")
    · simp [applyTableDerivation, deriveTableStatus, specTableStatus, hempty, h1, h2,
        getTable_updateTableStatus, ht]
    · by_cases h3 : items.any (fun i => i.status == "preparing")
      · simp [applyTableDerivation, deriveTableStatus, specTableStatus, hempty, h1, h2, h3,
          getTable_updateTableStatus, ht]
      · by_cases h4 : items.any (fun i => i.status == "new")
        · simp [applyTableDerivation, deriveTableStatus, specTableStatus, hempty, h1, h2, h3, h4,
            getTable_updateTableStatus, ht]
        · simp [applyTableDerivation, deriveTableStatus, specTableStatus, hempty, h1, h2, h3, h4, ht]

theorem updateOrderItemStatus_fst (s : PosState) (id st : String) :
    (updateOrderItemStatus s id st).1
      = (getOrderItem s id).map (fun i => { i with status := st }) := by
  unfold updateOrderItemStatus getOrderItem
  exact fst_findAndUpdateFirst _ _ _

theorem tables_syncTableStatusFromPOSOrder (s : PosState) (oid : String) :
    (syncTableStatusFromPOSOrder s oid).tables = s.tables := by
  unfold syncTableStatusFromPOSOrder updateCustomerTableStatus
  split
  · rfl
  · split
    · rfl
    · simp only []
      split
      · rfl
      · rfl

theorem orderItems_syncTableStatusFromPOSOrder (s : PosState) (oid : String) :
    (syncTableStatusFromPOSOrder s oid).orderItems = s.orderItems := by
  unfold syncTableStatusFromPOSOrder updateCustomerTableStatus
  split
  · rfl
  · split
    · rfl
    · simp only []
      split
      · rfl
      · rfl

theorem getOrder_createOrderItem (s : PosState) (b : InsertOrderItem) (x : String) :
    getOrder (createOrderItem s b).2 x = getOrder s x := rfl

theorem getOrder_updateOrderItemStatus (s : PosState) (id st x : String) :
    getOrder (updateOrderItemStatus s id st).2 x = getOrder s x := rfl

theorem getTable_of_tables_eq (s s2 : PosState) (x : String) (h : s2.tables = s.tables) :
    getTable s2 x = getTable s x := by
  unfold getTable
  rw [h]

theorem getOrderItems_of_orderItems_eq (s s2 : PosState) (x : String)
    (h : s2.orderItems = s.orderItems) : getOrderItems s2 x = getOrderItems s x := by
  unfold getOrderItems
  rw [h]

/-- C2: after the add-item route (for the order the item joins) and after
the update-item-status route, the bound table's status is the
specification's precedence applied to the order's current items; the
post-operation item list is never empty, so the no-items clause never
fires inside these operations. -/
theorem c2_table_status_derivation (s : PosState) (pathId : String) (body : InsertOrderItem)
    (itemId status : String) (it : OrderItem) (o o2 : Order) (tid tid2 : String) (t t2 : Table)
    (hbody : body.orderId = pathId)
    (ho : getOrder s pathId = some o)
    (htid : jsOrNone o.tableId = some tid)
    (ht : getTable s tid = some t)
    (hit : getOrderItem s itemId = some it)
    (ho2 : getOrder s it.orderId = some o2)
    (htid2 : jsOrNone o2.tableId = some tid2)
    (ht2 : getTable s tid2 = some t2) :
    getTable (postOrderItems s pathId body).1 tid
      = some { t with status :=
          specTableStatus (getOrderItems (postOrderItems s pathId body).1 pathId) t.status } ∧
    getTable (patchOrderItemStatus s itemId status).1 tid2
      = some { t2 with status :=
          specTableStatus (getOrderItems (patchOrderItemStatus s itemId status).1 it.orderId) t2.status } := by
  constructor
  · have hgo2 : getOrder ((updateOrderTotal (createOrderItem s body).2 pathId
        (toFixed2 (itemsSubtotal (getOrderItems (createOrderItem s body).2 pathId)))).2) pathId
        = some { o with total := toFixed2 (itemsSubtotal (getOrderItems (createOrderItem s body).2 pathId)) } := by
      rw [getOrder_updateOrderTotal, getOrder_createOrderItem, ho]
      rfl
    have hne : getOrderItems (createOrderItem s body).2 pathId ≠ [] := by
      unfold getOrderItems createOrderItem
      simp [List.filter_append, hbody]
    have hts2 : getTable ((updateOrderTotal (createOrderItem s body).2 pathId
        (toFixed2 (itemsSubtotal (getOrderItems (createOrderItem s body).2 pathId)))).2) tid
        = some t := ht
    simp only [postOrderItems]
    rw [hgo2]
    simp only [Option.map_some]
    have htid3 : jsOrNone ({ o with total := toFixed2 (itemsSubtotal (getOrderItems (createOrderItem s body).2 pathId)) } : Order).tableId = some tid := htid
    rw [htid3]
    simp only []
    rw [getTable_applyTableDerivation _ _ _ _ hts2 hne]
    rw [getOrderItems_of_orderItems_eq _ _ _ (orderItems_applyTableDerivation _ _ _)]
    rfl
  · have hfst : (updateOrderItemStatus s itemId status).1
        = some ({ it with status := status } : OrderItem) := by
      rw [updateOrderItemStatus_fst, hit]
      rfl
    have hmem : ({ it with status := status } : OrderItem)
        ∈ ((updateOrderItemStatus s itemId status).2).orderItems :=
      mem_findAndUpdateFirst _ _ _ _ hit
    have hne2 : getOrderItems (updateOrderItemStatus s itemId status).2 it.orderId ≠ [] := by
      unfold getOrderItems
      intro hnil
      have hm2 : ({ it with status := status } : OrderItem)
          ∈ (((updateOrderItemStatus s itemId status).2).orderItems).filter
              (fun i => i.orderId == it.orderId) :=
        List.mem_filter.mpr ⟨hmem, by simp⟩
      rw [hnil] at hm2
      exact absurd hm2 (List.not_mem_nil _)
    have hts1 : getTable (updateOrderItemStatus s itemId status).2 tid2 = some t2 := ht2
    simp only [patchOrderItemStatus]
    rw [hfst]
    simp only []
    rw [getOrder_updateOrderItemStatus, ho2]
    simp only []
    rw [htid2]
    simp only []
    cases hcp : jsOrNone o2.customerPhone with
    | none =>
      simp only []
      rw [getTable_applyTableDerivation _ _ _ _ hts1 hne2]
      rw [getOrderItems_of_orderItems_eq _ _ _ (orderItems_applyTableDerivation _ _ _)]
    | some ph =>
      simp only []
      rw [getTable_of_tables_eq _ _ _ (tables_syncTableStatusFromPOSOrder _ _)]
      rw [getOrderItems_of_orderItems_eq _ _ _ (orderItems_syncTableStatusFromPOSOrder _ _)]
      rw [getTable_applyTableDerivation _ _ _ _ hts1 hne2]
      rw [getOrderItems_of_orderItems_eq _ _ _ (orderItems_applyTableDerivation _ _ _)]

/-- Witness for C2 at the sample store. -/
theorem c2_table_status_derivation_witness :
    (getOrder sampleState "o1" = some sampleOrder ∧ getTable sampleState "t1" = some sampleTable ∧ getOrderItem sampleState "i1" = some sampleItem) ∧
    (getTable (postOrderItems sampleState "o1" sampleBody).1 "t1" = some { sampleTable with status := specTableStatus (getOrderItems (postOrderItems sampleState "o1" sampleBody).1 "o1") sampleTable.status } ∧
      getTable (patchOrderItemStatus sampleState "i1" "preparing").1 "t1" = some { sampleTable with status := specTableStatus (getOrderItems (patchOrderItemStatus sampleState "i1" "preparing").1 sampleItem.orderId) sampleTable.status }) :=
  ⟨⟨by decide, by decide, by decide⟩,
    c2_table_status_derivation sampleState "o1" sampleBody "i1" "preparing" sampleItem
      sampleOrder sampleOrder "t1" "t1" sampleTable sampleTable
      (by decide) (by decide) (by decide) (by decide) (by decide) (by decide) (by decide) (by decide)⟩

/-! ## C3: split-payment validation at checkout -/

theorem checkoutOrder_fst (s : PosState) (id : String) (pm : Option String) :
    (checkoutOrder s id pm).1
      = (getOrder s id).map (fun o => { o with status := "paid", paymentMode := pm }) := by
  unfold checkoutOrder getOrder
  exact fst_findAndUpdateFirst _ _ _

theorem getOrder_checkoutOrder (s : PosState) (id : String) (pm : Option String) :
    getOrder (checkoutOrder s id pm).2 id
      = (getOrder s id).map (fun o => { o with status := "paid", paymentMode := pm }) := by
  unfold checkoutOrder getOrder
  exact find?_findAndUpdateFirst _ _ _ (fun a ha => ha)

theorem orders_deductIngredientStep (qty : ℚ) (st : PosState) (ing : RecipeIngredient) :
    (deductIngredientStep qty st ing).orders = st.orders := by
  unfold deductIngredientStep
  split
  · rfl
  · rfl

theorem orders_deductItemStep (s : PosState) (oi : OrderItem) :
    (deductItemStep s oi).orders = s.orders := by
  unfold deductItemStep
  split
  · rfl
  · exact @foldl_preserves RecipeIngredient PosState (deductIngredientStep oi.quantity)
      (fun st => st.orders = s.orders)
      (fun b a hb => by
        show (deductIngredientStep oi.quantity b a).orders = s.orders
        rw [orders_deductIngredientStep]
        exact hb)
      _ s rfl

theorem orders_deductInventoryForOrder (s : PosState) (oid : String) :
    (deductInventoryForOrder s oid).orders = s.orders := by
  unfold deductInventoryForOrder
  exact @foldl_preserves OrderItem PosState deductItemStep
    (fun st => st.orders = s.orders)
    (fun b a hb => by
      show (deductItemStep b a).orders = s.orders
      rw [orders_deductItemStep]
      exact hb)
    _ s rfl

theorem getOrder_deductInventoryForOrder (s : PosState) (oid x : String) :
    getOrder (deductInventoryForOrder s oid) x = getOrder s x := by
  unfold getOrder
  rw [orders_deductInventoryForOrder]

/-- After the validated checkout tail, the response is 200 and the order is
stored as `paid`. -/
theorem checkoutProceed_ok (s : PosState) (pathId : String) (body : CheckoutBody)
    (orderItems : List OrderItem) (subtotal tax total : ℚ) (o : Order)
    (ho : getOrder s pathId = some o) :
    (checkoutProceed s pathId body orderItems subtotal tax total).2 = Resp.ok ∧
    (getOrder (checkoutProceed s pathId body orderItems subtotal tax total).1 pathId).map
        Order.status = some "paid" := by
  simp only [checkoutProceed, checkoutOrder_fst, ho, Option.map_some']
  constructor
  · trivial
  · cases htid : jsOrNone ({ o with status := "paid", paymentMode := body.paymentMode } : Order).tableId with
    | none =>
      cases hph : jsOrNone ({ o with status := "paid", paymentMode := body.paymentMode } : Order).customerPhone with
      | none =>
        rw [getOrder_deductInventoryForOrder]
        show (getOrder (checkoutOrder s pathId body.paymentMode).2 pathId).map Order.status = some "paid"
        rw [getOrder_checkoutOrder, ho]
        rfl
      | some ph =>
        rw [getOrder_deductInventoryForOrder]
        show (getOrder (checkoutOrder s pathId body.paymentMode).2 pathId).map Order.status = some "paid"
        rw [getOrder_checkoutOrder, ho]
        rfl
    | some tid =>
      cases hph : jsOrNone ({ o with status := "paid", paymentMode := body.paymentMode } : Order).customerPhone with
      | none =>
        rw [getOrder_deductInventoryForOrder]
        show (getOrder (checkoutOrder s pathId body.paymentMode).2 pathId).map Order.status = some "paid"
        rw [getOrder_checkoutOrder, ho]
        rfl
      | some ph =>
        rw [getOrder_deductInventoryForOrder]
        show (getOrder (checkoutOrder s pathId body.paymentMode).2 pathId).map Order.status = some "paid"
        rw [getOrder_checkoutOrder, ho]
        rfl

/-- C3: with a non-empty split list, checkout is rejected with no state
change when the split sum is off the recomputed total by more than 0.01,
rejected with no state change when (within tolerance) some split amount is
non-positive, and otherwise proceeds, marking the order paid. -/
theorem c3_split_payment_validation (s : PosState) (pathId : String) (body : CheckoutBody)
    (o : Order) (sps : List SplitPayment)
    (ho : getOrder s pathId = some o)
    (hsp : body.splitPayments = some sps)
    (hne : sps ≠ []) :
    ((1 : ℚ) / 100 < |splitSum sps - (itemsSubtotal (getOrderItems s pathId) + itemsSubtotal (getOrderItems s pathId) * (5 / 100))| →
      postOrderCheckout s pathId body = (s, Resp.badRequest "Split payment amounts must equal the total bill")) ∧
    (|splitSum sps - (itemsSubtotal (getOrderItems s pathId) + itemsSubtotal (getOrderItems s pathId) * (5 / 100))| ≤ (1 : ℚ) / 100 →
      (∃ sp ∈ sps, sp.amount ≤ 0) →
      postOrderCheckout s pathId body = (s, Resp.badRequest "Split payment amounts must be positive")) ∧
    (|splitSum sps - (itemsSubtotal (getOrderItems s pathId) + itemsSubtotal (getOrderItems s pathId) * (5 / 100))| ≤ (1 : ℚ) / 100 →
      (∀ sp ∈ sps, 0 < sp.amount) →
      (postOrderCheckout s pathId body).2 = Resp.ok ∧
      (getOrder (postOrderCheckout s pathId body).1 pathId).map Order.status = some "paid") := by
  have hlen : 0 < sps.length := List.length_pos.mpr hne
  have hsg : decide (0 < sps.length) = true := decide_eq_true hlen
  refine ⟨?_, ?_, ?_⟩
  · intro h
    simp only [postOrderCheckout, ho, hsp, Option.getD_some, hsg]
    rw [if_pos trivial, if_pos h]
  · intro h1 h2
    obtain ⟨sp, hm, hle⟩ := h2
    have hany : sps.any (fun sp => decide (sp.amount ≤ 0)) = true := by
      rw [List.any_eq_true]
      exact ⟨sp, hm, decide_eq_true hle⟩
    simp only [postOrderCheckout, ho, hsp, Option.getD_some, hsg]
    rw [if_pos trivial, if_neg (not_lt.mpr h1), if_pos hany]
  · intro h1 hpos
    have hnone : ¬ (sps.any (fun sp => decide (sp.amount ≤ 0)) = true) := by
      rw [List.any_eq_true]
      rintro ⟨sp, hm, hd⟩
      exact absurd (of_decide_eq_true hd) (not_le.mpr (hpos sp hm))
    simp only [postOrderCheckout, ho, hsp, Option.getD_some, hsg]
    rw [if_pos trivial, if_neg (not_lt.mpr h1), if_neg hnone]
    exact checkoutProceed_ok s pathId body _ _ _ _ o ho

def c3Order : Order :=
  { id := "o1", tableId := none, orderType := "dine-in", status := "billed", total := 200,
    customerName := none, customerPhone := none, paymentMode := none }

def c3Item : OrderItem :=
  { id := "i1", orderId := "o1", menuItemId := "m1", name := "Thali", quantity := 2, price := 100,
    notes := none, status := "served", isVeg := true }

def c3State : PosState :=
  { tables := [], orders := [c3Order], orderItems := [c3Item], menuItems := [], floors := [],
    inventoryItems := [], recipes := [], recipeIngredients := [], invoices := [], wastages := [],
    customers := [], nextId := 0 }

def c3Splits : List SplitPayment :=
  [{ person := 1, amount := 100, paymentMode := "cash" },
   { person := 2, amount := 110, paymentMode := "card" }]

def c3Body : CheckoutBody :=
  { paymentMode := some "cash", print := false, splitPayments := some c3Splits }

/-- Witness for C3: subtotal 200, tax 10, total 210, splits 100 + 110. -/
theorem c3_split_payment_validation_witness :
    (getOrder c3State "o1" = some c3Order ∧ c3Body.splitPayments = some c3Splits ∧ c3Splits ≠ []) ∧
    (((1 : ℚ) / 100 < |splitSum c3Splits - (itemsSubtotal (getOrderItems c3State "o1") + itemsSubtotal (getOrderItems c3State "o1") * (5 / 100))| →
        postOrderCheckout c3State "o1" c3Body = (c3State, Resp.badRequest "Split payment amounts must equal the total bill")) ∧
      (|splitSum c3Splits - (itemsSubtotal (getOrderItems c3State "o1") + itemsSubtotal (getOrderItems c3State "o1") * (5 / 100))| ≤ (1 : ℚ) / 100 →
        (∃ sp ∈ c3Splits, sp.amount ≤ 0) →
        postOrderCheckout c3State "o1" c3Body = (c3State, Resp.badRequest "Split payment amounts must be positive")) ∧
      (|splitSum c3Splits - (itemsSubtotal (getOrderItems c3State "o1") + itemsSubtotal (getOrderItems c3State "o1") * (5 / 100))| ≤ (1 : ℚ) / 100 →
        (∀ sp ∈ c3Splits, 0 < sp.amount) →
        (postOrderCheckout c3State "o1" c3Body).2 = Resp.ok ∧
        (getOrder (postOrderCheckout c3State "o1" c3Body).1 "o1").map Order.status = some "paid")) :=
  ⟨⟨by decide, by decide, by decide⟩,
    c3_split_payment_validation c3State "o1" c3Body c3Order c3Splits (by decide) (by decide) (by decide)⟩

/-! ## C4: double checkout is not rejected (code bug) -/

def c4Body : CheckoutBody :=
  { paymentMode := some "cash", print := false, splitPayments := none }

/-- C4: checking out the same order twice in a row is NOT rejected by the
code: the second call also returns 200, re-marks the order `paid`, and
creates a second `Paid` invoice — there is no NotFound and no eligibility
guard on the checkout route (`checkoutOrder` is an unconditional
`findOneAndUpdate`). -/
theorem c4_double_checkout_not_rejected :
    (postOrderCheckout c3State "o1" c4Body).2 = Resp.ok ∧
    (getOrder (postOrderCheckout c3State "o1" c4Body).1 "o1").map Order.status = some "paid" ∧
    (postOrderCheckout (postOrderCheckout c3State "o1" c4Body).1 "o1" c4Body).2 = Resp.ok ∧
    ((postOrderCheckout (postOrderCheckout c3State "o1" c4Body).1 "o1" c4Body).1).invoices.length = 2 := by
  decide

/-! ## C10: empty split-payment list -/

theorem foldl_comm_map {α β : Type} (g : β → β) (f : β → α → β)
    (h : ∀ b a, f (g b) a = g (f b a)) :
    ∀ (l : List α) (b : β), l.foldl f (g b) = g (l.foldl f b) := by
  intro l
  induction l with
  | nil => intro b; rfl
  | cons x xs ih => intro b; simp only [List.foldl_cons, h]; exact ih (f b x)

theorem deductIngredientStep_invoices (qty : ℚ) (st : PosState) (l : List Invoice)
    (ing : RecipeIngredient) :
    deductIngredientStep qty { st with invoices := l } ing
      = { deductIngredientStep qty st ing with invoices := l } := by
  unfold deductIngredientStep
  have hg : getInventoryItem { st with invoices := l } ing.inventoryItemId
      = getInventoryItem st ing.inventoryItemId := rfl
  rw [hg]
  cases h : getInventoryItem st ing.inventoryItemId with
  | none => rfl
  | some item => rfl

theorem deductItemStep_invoices (s : PosState) (l : List Invoice) (oi : OrderItem) :
    deductItemStep { s with invoices := l } oi = { deductItemStep s oi with invoices := l } := by
  unfold deductItemStep
  have hg : getRecipeByMenuItemId { s with invoices := l } oi.menuItemId
      = getRecipeByMenuItemId s oi.menuItemId := rfl
  rw [hg]
  cases h : getRecipeByMenuItemId s oi.menuItemId with
  | none => rfl
  | some recipe =>
    dsimp only
    have hg2 : getRecipeIngredients { s with invoices := l } recipe.id
        = getRecipeIngredients s recipe.id := rfl
    rw [hg2]
    exact foldl_comm_map (fun st => { st with invoices := l }) (deductIngredientStep oi.quantity)
      (fun b a => deductIngredientStep_invoices oi.quantity b l a) _ s

theorem deductInventoryForOrder_invoices (s : PosState) (l : List Invoice) (oid : String) :
    deductInventoryForOrder { s with invoices := l } oid
      = { deductInventoryForOrder s oid with invoices := l } := by
  unfold deductInventoryForOrder
  have hg : getOrderItems { s with invoices := l } oid = getOrderItems s oid := rfl
  rw [hg]
  exact foldl_comm_map (fun st => { st with invoices := l }) deductItemStep
    (fun b a => deductItemStep_invoices b l a) _ s

/-- Override an invoice's `splitPayments` field. -/
def setInvoiceSplits (sp : Option (List SplitPayment)) (i : Invoice) : Invoice :=
  { i with splitPayments := sp }

/-- C10: an empty `splitPayments` list skips the split validation entirely
(the zero split sum is never compared with the total), the checkout
succeeds exactly as with no split payments supplied, and the resulting
states agree everywhere except that the created invoice stores the
serialized empty list where the no-splits run stores null. -/
theorem c10_empty_split_list (s : PosState) (pathId : String) (pm : Option String) (print : Bool)
    (o : Order) (sE sN : PosState) (rE rN : Resp)
    (ho : getOrder s pathId = some o)
    (hE : postOrderCheckout s pathId { paymentMode := pm, print := print, splitPayments := some [] } = (sE, rE))
    (hN : postOrderCheckout s pathId { paymentMode := pm, print := print, splitPayments := none } = (sN, rN)) :
    rE = Resp.ok ∧ rN = Resp.ok ∧
    sE.tables = sN.tables ∧ sE.orders = sN.orders ∧ sE.orderItems = sN.orderItems ∧
    sE.menuItems = sN.menuItems ∧ sE.floors = sN.floors ∧
    sE.inventoryItems = sN.inventoryItems ∧ sE.recipes = sN.recipes ∧
    sE.recipeIngredients = sN.recipeIngredients ∧ sE.wastages = sN.wastages ∧
    sE.customers = sN.customers ∧ sE.nextId = sN.nextId ∧
    sE.invoices.map (setInvoiceSplits none) = sN.invoices.map (setInvoiceSplits none) ∧
    sE.invoices.getLast?.map Invoice.splitPayments = some (some []) ∧
    sN.invoices.getLast?.map Invoice.splitPayments = some none := by
  have hE1 := congrArg Prod.fst hE
  have hE2 := congrArg Prod.snd hE
  have hN1 := congrArg Prod.fst hN
  have hN2 := congrArg Prod.snd hN
  simp only at hE1 hE2 hN1 hN2
  subst hE1
  subst hE2
  subst hN1
  subst hN2
  simp only [postOrderCheckout, ho]
  rw [if_neg (by decide : ¬ ((decide (0 < ([] : List SplitPayment).length)) = true))]
  rw [if_neg (by decide : ¬ (false = true))]
  simp only [checkoutProceed, checkoutOrder_fst, ho, Option.map_some']
  cases htid : jsOrNone o.tableId with
  | none =>
    cases hph : jsOrNone o.customerPhone with
    | none =>
      simp only [createInvoice, deductInventoryForOrder_invoices]
      refine ⟨?_, ?_, ?_, ?_, ?_, ?_, ?_, ?_, ?_, ?_, ?_, ?_, ?_, ?_, ?_, ?_⟩ <;>
        first
          | trivial
          | simp [List.map_append, setInvoiceSplits, List.getLast?_concat]
    | some ph =>
      simp only [createInvoice, deductInventoryForOrder_invoices]
      refine ⟨?_, ?_, ?_, ?_, ?_, ?_, ?_, ?_, ?_, ?_, ?_, ?_, ?_, ?_, ?_, ?_⟩ <;>
        first
          | trivial
          | simp [List.map_append, setInvoiceSplits, List.getLast?_concat]
  | some tid =>
    cases hph : jsOrNone o.customerPhone with
    | none =>
      simp only [createInvoice, deductInventoryForOrder_invoices]
      refine ⟨?_, ?_, ?_, ?_, ?_, ?_, ?_, ?_, ?_, ?_, ?_, ?_, ?_, ?_, ?_, ?_⟩ <;>
        first
          | trivial
          | simp [List.map_append, setInvoiceSplits, List.getLast?_concat]
    | some ph =>
      simp only [createInvoice, deductInventoryForOrder_invoices]
      refine ⟨?_, ?_, ?_, ?_, ?_, ?_, ?_, ?_, ?_, ?_, ?_, ?_, ?_, ?_, ?_, ?_⟩ <;>
        first
          | trivial
          | simp [List.map_append, setInvoiceSplits, List.getLast?_concat]

def c10BodyE : CheckoutBody :=
  { paymentMode := some "cash", print := false, splitPayments := some [] }

def c10BodyN : CheckoutBody :=
  { paymentMode := some "cash", print := false, splitPayments := none }

def c10sE : PosState := (postOrderCheckout c3State "o1" c10BodyE).1

def c10rE : Resp := (postOrderCheckout c3State "o1" c10BodyE).2

def c10sN : PosState := (postOrderCheckout c3State "o1" c10BodyN).1

def c10rN : Resp := (postOrderCheckout c3State "o1" c10BodyN).2

/-- Witness for C10 at the sample checkout store. -/
theorem c10_empty_split_list_witness :
    getOrder c3State "o1" = some c3Order ∧
    (c10rE = Resp.ok ∧ c10rN = Resp.ok ∧
      c10sE.tables = c10sN.tables ∧ c10sE.orders = c10sN.orders ∧
      c10sE.orderItems = c10sN.orderItems ∧ c10sE.menuItems = c10sN.menuItems ∧
      c10sE.floors = c10sN.floors ∧ c10sE.inventoryItems = c10sN.inventoryItems ∧
      c10sE.recipes = c10sN.recipes ∧ c10sE.recipeIngredients = c10sN.recipeIngredients ∧
      c10sE.wastages = c10sN.wastages ∧ c10sE.customers = c10sN.customers ∧
      c10sE.nextId = c10sN.nextId ∧
      c10sE.invoices.map (setInvoiceSplits none) = c10sN.invoices.map (setInvoiceSplits none) ∧
      c10sE.invoices.getLast?.map Invoice.splitPayments = some (some []) ∧
      c10sN.invoices.getLast?.map Invoice.splitPayments = some none) :=
  ⟨by decide,
    c10_empty_split_list c3State "o1" (some "cash") false c3Order c10sE c10sN c10rE c10rN
      (by decide) rfl rfl⟩

/-! ## C6: NotFound semantics on unknown order ids -/

theorem updateOrderStatus_of_none (s : PosState) (oid st : String)
    (h : getOrder s oid = none) : updateOrderStatus s oid st = (none, s) := by
  simp only [updateOrderStatus]
  rw [findAndUpdateFirst_of_find?_eq_none _ _ _ h]

theorem completeOrder_of_none (s : PosState) (oid : String)
    (h : getOrder s oid = none) : completeOrder s oid = (none, s) := by
  simp only [completeOrder]
  rw [findAndUpdateFirst_of_find?_eq_none _ _ _ h]

theorem billOrder_of_none (s : PosState) (oid : String)
    (h : getOrder s oid = none) : billOrder s oid = (none, s) := by
  simp only [billOrder]
  rw [findAndUpdateFirst_of_find?_eq_none _ _ _ h]

theorem updateOrderItemStatus_of_none (s : PosState) (iid st : String)
    (h : getOrderItem s iid = none) : updateOrderItemStatus s iid st = (none, s) := by
  simp only [updateOrderItemStatus]
  rw [findAndUpdateFirst_of_find?_eq_none _ _ _ h]

/-- C6 (amended): every order-lifecycle route that looks its order up —
update-order-status, send-to-kitchen, save, bill, complete, checkout —
returns NotFound with no state change on an unknown order id, and
update-item-status does the same on an unknown item id.  (The add-item
route is the exception, see the counterexample.) -/
theorem c6_not_found_semantics (s : PosState) (oid iid st2 : String) (print : Bool)
    (body : CheckoutBody)
    (ho : getOrder s oid = none) (hi : getOrderItem s iid = none) :
    patchOrderStatus s oid st2 = (s, Resp.notFound "Order not found") ∧
    postOrderKot s oid print = (s, Resp.notFound "Order not found") ∧
    postOrderSave s oid print = (s, Resp.notFound "Order not found") ∧
    postOrderBill s oid print = (s, Resp.notFound "Order not found") ∧
    postOrderComplete s oid = (s, Resp.notFound "Order not found") ∧
    postOrderCheckout s oid body = (s, Resp.notFound "Order not found") ∧
    patchOrderItemStatus s iid st2 = (s, Resp.notFound "Order item not found") := by
  refine ⟨?_, ?_, ?_, ?_, ?_, ?_, ?_⟩
  · simp only [patchOrderStatus, updateOrderStatus_of_none s oid st2 ho]
  · simp only [postOrderKot, updateOrderStatus_of_none s oid "sent_to_kitchen" ho]
  · simp only [postOrderSave, updateOrderStatus_of_none s oid "saved" ho]
  · simp only [postOrderBill, billOrder_of_none s oid ho]
  · simp only [postOrderComplete, completeOrder_of_none s oid ho]
  · simp only [postOrderCheckout, ho]
  · simp only [patchOrderItemStatus, updateOrderItemStatus_of_none s iid st2 hi]

/-- Witness for C6 with unknown ids against the sample store. -/
theorem c6_not_found_semantics_witness :
    (getOrder sampleState "nope" = none ∧ getOrderItem sampleState "nope2" = none) ∧
    (patchOrderStatus sampleState "nope" "billed" = (sampleState, Resp.notFound "Order not found") ∧
      postOrderKot sampleState "nope" false = (sampleState, Resp.notFound "Order not found") ∧
      postOrderSave sampleState "nope" false = (sampleState, Resp.notFound "Order not found") ∧
      postOrderBill sampleState "nope" false = (sampleState, Resp.notFound "Order not found") ∧
      postOrderComplete sampleState "nope" = (sampleState, Resp.notFound "Order not found") ∧
      postOrderCheckout sampleState "nope" c4Body = (sampleState, Resp.notFound "Order not found") ∧
      patchOrderItemStatus sampleState "nope2" "ready" = (sampleState, Resp.notFound "Order item not found")) :=
  ⟨⟨by decide, by decide⟩,
    c6_not_found_semantics sampleState "nope" "nope2" "billed" false c4Body (by decide) (by decide)⟩

def c6State : PosState :=
  { tables := [], orders := [], orderItems := [], menuItems := [], floors := [],
    inventoryItems := [], recipes := [], recipeIngredients := [], invoices := [], wastages := [],
    customers := [], nextId := 0 }

def c6Body : InsertOrderItem :=
  { orderId := "ghost", menuItemId := "m1", name := "Tea", quantity := 1, price := 10,
    notes := none, status := "new", isVeg := true }

/-- C6 counterexample: the add-item route invoked with an order id that
does not exist does NOT return NotFound — it returns 200 and creates the
order item (a state change), because the route never looks the order up. -/
theorem c6_counterexample_add_item_unknown_order :
    getOrder c6State "ghost" = none ∧
    (postOrderItems c6State "ghost" c6Body).2 = Resp.ok ∧
    (postOrderItems c6State "ghost" c6Body).2 ≠ Resp.notFound "Order not found" ∧
    ((postOrderItems c6State "ghost" c6Body).1).orderItems.length = 1 ∧
    (postOrderItems c6State "ghost" c6Body).1 ≠ c6State := by
  decide

/-! ## C8: wastage recording deducts twice (code bug) -/

def c8State : PosState :=
  { tables := [], orders := [], orderItems := [], menuItems := [], floors := [],
    inventoryItems := [{ id := "inv1", name := "Paneer", currentStock := 10 }],
    recipes := [], recipeIngredients := [], invoices := [], wastages := [],
    customers := [], nextId := 0 }

def c8Wastage : InsertWastage :=
  { inventoryItemId := "inv1", quantity := 6, unit := "kg", reason := "spoilage" }

/-- C8: recording wastage of 6 against stock 10 passes the negative-stock
guard (10 − 6 = 4 ≥ 0) but leaves stock −2, not 4: the route deducts once
and `createWastage` deducts again.  The rejection path of the claim does
hold: wastage of 11 is rejected with no state change. -/
theorem c8_wastage_double_deduction :
    (postWastage c8State c8Wastage).2 = Resp.ok ∧
    (getInventoryItem (postWastage c8State c8Wastage).1 "inv1").map InventoryItem.currentStock
      = some (-2) ∧
    (getInventoryItem (postWastage c8State c8Wastage).1 "inv1").map InventoryItem.currentStock
      ≠ some (10 - 6) ∧
    postWastage c8State { inventoryItemId := "inv1", quantity := 11, unit := "kg", reason := "x" }
      = (c8State, Resp.badRequest "Insufficient stock for wastage entry") := by
  norm_num [postWastage, c8State, c8Wastage, getInventoryItem, updateInventoryQuantity,
    createWastage, findAndUpdateFirst, freshId]

/-! ## C7: recipe-based inventory deduction at checkout -/

/-- Whether the most-recent recipe of a menu item consumes the given
inventory item. -/
def recipeTouches (s : PosState) (menuItemId invId : String) : Bool :=
  match getRecipeByMenuItemId s menuItemId with
  | none => false
  | some r => (getRecipeIngredients s r.id).any (fun g => g.inventoryItemId == invId)

theorem foldl_preserves_mem {α β : Type} {f : β → α → β} {P : β → Prop} :
    ∀ (l : List α), (∀ b a, a ∈ l → P b → P (f b a)) → ∀ b, P b → P (l.foldl f b) := by
  intro l
  induction l with
  | nil => intro _ b hb; simpa using hb
  | cons x xs ih =>
    intro h b hb
    exact ih (fun b2 a ha => h b2 a (List.mem_cons_of_mem _ ha)) (f b x)
      (h b x (List.mem_cons_self _ _) hb)

theorem filter_singleton_split {α : Type} (p : α → Bool) (l : List α) (a : α)
    (h : l.filter p = [a]) :
    ∃ l1 l2, l = l1 ++ a :: l2 ∧ (∀ x ∈ l1, p x = false) ∧ (∀ x ∈ l2, p x = false) ∧ p a = true := by
  induction l with
  | nil => simp at h
  | cons x xs ih =>
    by_cases hx : p x
    · rw [List.filter_cons_of_pos hx] at h
      have hxa : x = a := by
        have := congrArg (fun l => l.head?) h
        simpa using this
      have hnil : xs.filter p = [] := by
        have := congrArg (fun l => l.tail) h
        simpa using this
      refine ⟨[], xs, by simp [hxa], by simp, ?_, by rw [← hxa]; exact hx⟩
      intro y hy
      cases hpy : p y with
      | false => rfl
      | true =>
        have : y ∈ xs.filter p := List.mem_filter.mpr ⟨hy, hpy⟩
        rw [hnil] at this
        exact absurd this (List.not_mem_nil y)
    · rw [List.filter_cons_of_neg hx] at h
      obtain ⟨l1, l2, hsplit, h1, h2, hpa⟩ := ih h
      refine ⟨x :: l1, l2, by simp [hsplit], ?_, h2, hpa⟩
      intro y hy
      rcases List.mem_cons.mp hy with heq | hy2
      · rw [heq]; simpa using hx
      · exact h1 y hy2

theorem count_one_split {α : Type} [BEq α] [LawfulBEq α] (l : List α) (a : α)
    (h : l.count a = 1) : ∃ l1 l2, l = l1 ++ a :: l2 ∧ a ∉ l1 ∧ a ∉ l2 := by
  induction l with
  | nil => simp at h
  | cons x xs ih =>
    by_cases hx : (x == a) = true
    · have hxa : x = a := eq_of_beq hx
      subst hxa
      have hz : xs.count x = 0 := by
        rw [List.count_cons_self] at h
        omega
      have hnot : x ∉ xs := by rwa [← List.count_eq_zero]
      exact ⟨[], xs, rfl, by simp, hnot⟩
    · have hc : xs.count a = 1 := by
        rw [List.count_cons] at h
        simpa [hx] using h
      obtain ⟨l1, l2, hs, h1, h2⟩ := ih hc
      refine ⟨x :: l1, l2, by simp [hs], ?_, h2⟩
      intro hmem
      rcases List.mem_cons.mp hmem with heq | hmem2
      · rw [heq] at hx; simp at hx
      · exact h1 hmem2

theorem getRecipeByMenuItemId_congr (st s : PosState) (m : String)
    (h : st.recipes = s.recipes) :
    getRecipeByMenuItemId st m = getRecipeByMenuItemId s m := by
  unfold getRecipeByMenuItemId
  rw [h]

theorem getRecipeIngredients_congr (st s : PosState) (rid : String)
    (h : st.recipeIngredients = s.recipeIngredients) :
    getRecipeIngredients st rid = getRecipeIngredients s rid := by
  unfold getRecipeIngredients
  rw [h]

theorem proj_deductIngredientStep {γ : Type} (φ : PosState → γ)
    (hφ : ∀ (s : PosState) (id : String) (q : ℚ), φ (updateInventoryQuantity s id q).2 = φ s)
    (qty : ℚ) (st : PosState) (ing : RecipeIngredient) :
    φ (deductIngredientStep qty st ing) = φ st := by
  unfold deductIngredientStep
  cases h : getInventoryItem st ing.inventoryItemId with
  | none => rfl
  | some item => exact hφ st ing.inventoryItemId _

theorem proj_deductItemStep {γ : Type} (φ : PosState → γ)
    (hφ : ∀ (s : PosState) (id : String) (q : ℚ), φ (updateInventoryQuantity s id q).2 = φ s)
    (st : PosState) (oi : OrderItem) :
    φ (deductItemStep st oi) = φ st := by
  unfold deductItemStep
  cases h : getRecipeByMenuItemId st oi.menuItemId with
  | none => rfl
  | some recipe =>
    dsimp only
    exact @foldl_preserves_mem RecipeIngredient PosState (deductIngredientStep oi.quantity)
      (fun b => φ b = φ st) _
      (fun b g _ hb => by
        show φ (deductIngredientStep oi.quantity b g) = φ st
        rw [proj_deductIngredientStep φ hφ]
        exact hb) st rfl

theorem getInventoryItem_deductIngredientStep_other (qty : ℚ) (st : PosState)
    (g : RecipeIngredient) (invId : String)
    (h : (g.inventoryItemId == invId) = false) :
    getInventoryItem (deductIngredientStep qty st g) invId = getInventoryItem st invId := by
  unfold deductIngredientStep
  cases hl : getInventoryItem st g.inventoryItemId with
  | none => rfl
  | some item =>
    unfold updateInventoryQuantity getInventoryItem
    apply find?_findAndUpdateFirst_of_ne
    · intro a ha
      have h1 : a.id = g.inventoryItemId := by simpa using ha
      have h2 : g.inventoryItemId ≠ invId := by simpa using h
      simp [h1, h2]
    · intro a
      rfl

theorem getInventoryItem_deductIngredientStep_self (qty : ℚ) (st : PosState)
    (g : RecipeIngredient) (inv : InventoryItem)
    (h : getInventoryItem st g.inventoryItemId = some inv) :
    getInventoryItem (deductIngredientStep qty st g) g.inventoryItemId
      = some { inv with currentStock := inv.currentStock - g.quantity * qty } := by
  unfold deductIngredientStep
  rw [h]
  dsimp only
  simp only [updateInventoryQuantity, getInventoryItem]
  rw [find?_findAndUpdateFirst (fun i => i.id == g.inventoryItemId)
    (fun i => { i with currentStock := inv.currentStock - g.quantity * qty })
    st.inventoryItems (fun a ha => ha)]
  have h2 : List.find? (fun i => i.id == g.inventoryItemId) st.inventoryItems = some inv := h
  rw [h2]
  rfl

/-- A deduction step for an order item whose recipe does not consume the
inventory item leaves that inventory item's record unchanged. -/
theorem deductItemStep_not_touch (s st : PosState) (oj : OrderItem) (invId : String)
    (hrec : st.recipes = s.recipes) (hri : st.recipeIngredients = s.recipeIngredients)
    (h : recipeTouches s oj.menuItemId invId = false) :
    getInventoryItem (deductItemStep st oj) invId = getInventoryItem st invId := by
  unfold deductItemStep
  rw [getRecipeByMenuItemId_congr st s _ hrec]
  unfold recipeTouches at h
  cases hr2 : getRecipeByMenuItemId s oj.menuItemId with
  | none => rfl
  | some r2 =>
    dsimp only
    rw [getRecipeIngredients_congr st s _ hri]
    rw [hr2] at h
    dsimp only at h
    have hall : ∀ g ∈ getRecipeIngredients s r2.id, (g.inventoryItemId == invId) = false := by
      intro g hg
      cases hgv : (g.inventoryItemId == invId) with
      | false => rfl
      | true =>
        have : (getRecipeIngredients s r2.id).any (fun g => g.inventoryItemId == invId) = true :=
          List.any_eq_true.mpr ⟨g, hg, hgv⟩
        rw [h] at this
        simp at this
    exact @foldl_preserves_mem RecipeIngredient PosState (deductIngredientStep oj.quantity)
      (fun b => getInventoryItem b invId = getInventoryItem st invId) _
      (fun b g hg hb => by
        show getInventoryItem (deductIngredientStep oj.quantity b g) invId
            = getInventoryItem st invId
        rw [getInventoryItem_deductIngredientStep_other _ _ _ _ (hall g hg)]
        exact hb)
      st rfl

/-- The deduction step for the order item itself subtracts exactly
`ingredient.quantity × item.quantity` when the recipe lists the ingredient
exactly once for that inventory item. -/
theorem deductItemStep_stock_self (s st : PosState) (oi : OrderItem) (r : Recipe)
    (ing : RecipeIngredient) (inv : InventoryItem)
    (hrec : st.recipes = s.recipes) (hri : st.recipeIngredients = s.recipeIngredients)
    (hr : getRecipeByMenuItemId s oi.menuItemId = some r)
    (hing : (getRecipeIngredients s r.id).filter
        (fun g => g.inventoryItemId == ing.inventoryItemId) = [ing])
    (hinv : getInventoryItem st ing.inventoryItemId = some inv) :
    getInventoryItem (deductItemStep st oi) ing.inventoryItemId
      = some { inv with currentStock := inv.currentStock - ing.quantity * oi.quantity } := by
  unfold deductItemStep
  rw [getRecipeByMenuItemId_congr st s _ hrec, hr]
  dsimp only
  rw [getRecipeIngredients_congr st s _ hri]
  obtain ⟨G1, G2, hG, h1, h2, hpa⟩ := filter_singleton_split _ _ _ hing
  rw [hG, List.foldl_append, List.foldl_cons]
  have hst1 : getInventoryItem (G1.foldl (deductIngredientStep oi.quantity) st)
      ing.inventoryItemId = some inv :=
    @foldl_preserves_mem RecipeIngredient PosState (deductIngredientStep oi.quantity)
      (fun b => getInventoryItem b ing.inventoryItemId = some inv) G1
      (fun b g hg hb => by
        show getInventoryItem (deductIngredientStep oi.quantity b g) ing.inventoryItemId
            = some inv
        rw [getInventoryItem_deductIngredientStep_other _ _ _ _ (h1 g hg)]
        exact hb)
      st hinv
  have hstep : getInventoryItem
      (deductIngredientStep oi.quantity (G1.foldl (deductIngredientStep oi.quantity) st) ing)
      ing.inventoryItemId
      = some { inv with currentStock := inv.currentStock - ing.quantity * oi.quantity } :=
    getInventoryItem_deductIngredientStep_self oi.quantity _ ing inv hst1
  exact @foldl_preserves_mem RecipeIngredient PosState (deductIngredientStep oi.quantity)
    (fun b => getInventoryItem b ing.inventoryItemId
        = some { inv with currentStock := inv.currentStock - ing.quantity * oi.quantity }) G2
    (fun b g hg hb => by
      show getInventoryItem (deductIngredientStep oi.quantity b g) ing.inventoryItemId = _
      rw [getInventoryItem_deductIngredientStep_other _ _ _ _ (h2 g hg)]
      exact hb)
    _ hstep

/-- The full inventory deduction for an order: an ingredient consumed only
by a unique order item (listed once in that item's recipe) ends exactly
`ingredient.quantity × item.quantity` lower, with no clamping at zero. -/
theorem deduct_stock_spec (s s4 : PosState) (oid : String) (oi : OrderItem)
    (r : Recipe) (ing : RecipeIngredient) (inv : InventoryItem)
    (hoi4 : s4.orderItems = s.orderItems)
    (hrec4 : s4.recipes = s.recipes)
    (hri4 : s4.recipeIngredients = s.recipeIngredients)
    (hinv4 : getInventoryItem s4 ing.inventoryItemId = some inv)
    (hcount : (getOrderItems s oid).count oi = 1)
    (hr : getRecipeByMenuItemId s oi.menuItemId = some r)
    (hing : (getRecipeIngredients s r.id).filter
        (fun g => g.inventoryItemId == ing.inventoryItemId) = [ing])
    (hothers : ∀ oj ∈ getOrderItems s oid, oj ≠ oi →
        recipeTouches s oj.menuItemId ing.inventoryItemId = false) :
    getInventoryItem (deductInventoryForOrder s4 oid) ing.inventoryItemId
      = some { inv with currentStock := inv.currentStock - ing.quantity * oi.quantity } := by
  unfold deductInventoryForOrder
  rw [getOrderItems_of_orderItems_eq s s4 oid hoi4]
  obtain ⟨L1, L2, hL, hnot1, hnot2⟩ := count_one_split _ _ hcount
  rw [hL, List.foldl_append, List.foldl_cons]
  have hstep : ∀ (b : PosState) (oj : OrderItem), oj ∈ getOrderItems s oid → oj ≠ oi →
      (b.orderItems = s.orderItems ∧ b.recipes = s.recipes ∧
        b.recipeIngredients = s.recipeIngredients) →
      ((deductItemStep b oj).orderItems = s.orderItems ∧
        (deductItemStep b oj).recipes = s.recipes ∧
        (deductItemStep b oj).recipeIngredients = s.recipeIngredients) ∧
      getInventoryItem (deductItemStep b oj) ing.inventoryItemId
        = getInventoryItem b ing.inventoryItemId := by
    intro b oj hmem hne hb
    obtain ⟨hb1, hb2, hb3⟩ := hb
    refine ⟨⟨?_, ?_, ?_⟩, ?_⟩
    · rw [proj_deductItemStep PosState.orderItems (fun _ _ _ => rfl)]; exact hb1
    · rw [proj_deductItemStep PosState.recipes (fun _ _ _ => rfl)]; exact hb2
    · rw [proj_deductItemStep PosState.recipeIngredients (fun _ _ _ => rfl)]; exact hb3
    · exact deductItemStep_not_touch s b oj _ hb2 hb3 (hothers oj hmem hne)
  have hQ1 : ((L1.foldl deductItemStep s4).orderItems = s.orderItems ∧
        (L1.foldl deductItemStep s4).recipes = s.recipes ∧
        (L1.foldl deductItemStep s4).recipeIngredients = s.recipeIngredients) ∧
      getInventoryItem (L1.foldl deductItemStep s4) ing.inventoryItemId = some inv := by
    refine @foldl_preserves_mem OrderItem PosState deductItemStep
      (fun st => (st.orderItems = s.orderItems ∧ st.recipes = s.recipes ∧
        st.recipeIngredients = s.recipeIngredients) ∧
        getInventoryItem st ing.inventoryItemId = some inv) L1
      ?_ s4 ⟨⟨hoi4, hrec4, hri4⟩, hinv4⟩
    intro b oj hmem1 hb
    have hOJmem : oj ∈ getOrderItems s oid := by
      rw [hL]
      exact List.mem_append_left _ hmem1
    have hne : oj ≠ oi := fun he => hnot1 (he ▸ hmem1)
    obtain ⟨hctx2, hval2⟩ := hstep b oj hOJmem hne hb.1
    exact ⟨hctx2, by rw [hval2]; exact hb.2⟩
  obtain ⟨⟨hc1, hc2, hc3⟩, hval⟩ := hQ1
  have hmid : getInventoryItem (deductItemStep (L1.foldl deductItemStep s4) oi)
      ing.inventoryItemId
      = some { inv with currentStock := inv.currentStock - ing.quantity * oi.quantity } :=
    deductItemStep_stock_self s _ oi r ing inv hc2 hc3 hr hing hval
  have hcmid : (deductItemStep (L1.foldl deductItemStep s4) oi).orderItems = s.orderItems ∧
      (deductItemStep (L1.foldl deductItemStep s4) oi).recipes = s.recipes ∧
      (deductItemStep (L1.foldl deductItemStep s4) oi).recipeIngredients
        = s.recipeIngredients := by
    refine ⟨?_, ?_, ?_⟩
    · rw [proj_deductItemStep PosState.orderItems (fun _ _ _ => rfl)]; exact hc1
    · rw [proj_deductItemStep PosState.recipes (fun _ _ _ => rfl)]; exact hc2
    · rw [proj_deductItemStep PosState.recipeIngredients (fun _ _ _ => rfl)]; exact hc3
  have hfin := @foldl_preserves_mem OrderItem PosState deductItemStep
    (fun st => (st.orderItems = s.orderItems ∧ st.recipes = s.recipes ∧
      st.recipeIngredients = s.recipeIngredients) ∧
      getInventoryItem st ing.inventoryItemId
        = some { inv with currentStock := inv.currentStock - ing.quantity * oi.quantity }) L2
    (by
      intro b oj hmem2 hb
      have hOJmem : oj ∈ getOrderItems s oid := by
        rw [hL]
        exact List.mem_append_right _ (List.mem_cons_of_mem _ hmem2)
      have hne : oj ≠ oi := fun he => hnot2 (he ▸ hmem2)
      obtain ⟨hctx2, hval2⟩ := hstep b oj hOJmem hne hb.1
      exact ⟨hctx2, by rw [hval2]; exact hb.2⟩)
    _ ⟨hcmid, hmid⟩
  exact hfin.2

/-- C7: checking out an order containing a unique item of quantity n whose
menu item's most-recent recipe lists the ingredient (once) at q per unit,
while no other item of the order consumes that ingredient, leaves the
ingredient's stock at exactly old − q × n — no flooring at zero, so the
result may be negative. -/
theorem c7_recipe_deduction (s : PosState) (pathId : String) (body : CheckoutBody)
    (o : Order) (oi : OrderItem) (r : Recipe) (ing : RecipeIngredient) (inv : InventoryItem)
    (ho : getOrder s pathId = some o)
    (hsp : body.splitPayments = none)
    (hcount : (getOrderItems s pathId).count oi = 1)
    (hr : getRecipeByMenuItemId s oi.menuItemId = some r)
    (hing : (getRecipeIngredients s r.id).filter
        (fun g => g.inventoryItemId == ing.inventoryItemId) = [ing])
    (hinv : getInventoryItem s ing.inventoryItemId = some inv)
    (hothers : ∀ oj ∈ getOrderItems s pathId, oj ≠ oi →
        recipeTouches s oj.menuItemId ing.inventoryItemId = false) :
    getInventoryItem (postOrderCheckout s pathId body).1 ing.inventoryItemId
      = some { inv with currentStock := inv.currentStock - ing.quantity * oi.quantity } := by
  have hid : o.id = pathId := by
    have h2 : s.orders.find? (fun o2 => o2.id == pathId) = some o := ho
    have h3 := List.find?_some h2
    simpa using h3
  simp only [postOrderCheckout, ho, hsp]
  rw [if_neg (by simp : ¬ (false = true))]
  simp only [checkoutProceed, checkoutOrder_fst, ho, Option.map_some']
  cases htid : jsOrNone o.tableId <;> cases hph : jsOrNone o.customerPhone <;>
    (rw [hid]
     exact deduct_stock_spec s _ pathId oi r ing inv rfl rfl rfl hinv hcount hr hing hothers)

def c7Order : Order :=
  { id := "o1", tableId := none, orderType := "dine-in", status := "billed", total := 398,
    customerName := none, customerPhone := none, paymentMode := none }

def c7Item : OrderItem :=
  { id := "i1", orderId := "o1", menuItemId := "m1", name := "Paneer Tikka", quantity := 2,
    price := 199, notes := none, status := "served", isVeg := true }

def c7Recipe : Recipe := { id := "r1", menuItemId := "m1", createdAt := 5 }

def c7Ing : RecipeIngredient :=
  { id := "g1", recipeId := "r1", inventoryItemId := "inv1", quantity := 150 }

def c7Inv : InventoryItem := { id := "inv1", name := "Paneer", currentStock := 1000 }

def c7State : PosState :=
  { tables := [], orders := [c7Order], orderItems := [c7Item], menuItems := [], floors := [],
    inventoryItems := [c7Inv], recipes := [c7Recipe], recipeIngredients := [c7Ing],
    invoices := [], wastages := [], customers := [], nextId := 0 }

/-- Witness for C7: recipe 150 per unit, quantity 2, stock 1000 → 700. -/
theorem c7_recipe_deduction_witness :
    (getOrder c7State "o1" = some c7Order ∧
      (getOrderItems c7State "o1").count c7Item = 1 ∧
      getRecipeByMenuItemId c7State c7Item.menuItemId = some c7Recipe ∧
      (getRecipeIngredients c7State c7Recipe.id).filter
        (fun g => g.inventoryItemId == c7Ing.inventoryItemId) = [c7Ing] ∧
      getInventoryItem c7State c7Ing.inventoryItemId = some c7Inv) ∧
    getInventoryItem (postOrderCheckout c7State "o1" c4Body).1 c7Ing.inventoryItemId
      = some { c7Inv with currentStock := c7Inv.currentStock - c7Ing.quantity * c7Item.quantity } :=
  ⟨⟨by decide, by decide, by decide, by decide, by decide⟩,
    c7_recipe_deduction c7State "o1" c4Body c7Order c7Item c7Recipe c7Ing c7Inv
      (by decide) (by decide) (by decide) (by decide) (by decide) (by decide) (by decide)⟩

/-! ## C9: unknown external statuses fall back to item status `new` -/

theorem map_id_of_all {α : Type} (l : List α) (f : α → α) (h : ∀ a ∈ l, f a = a) :
    l.map f = l := by
  induction l with
  | nil => rfl
  | cons x xs ih =>
    simp only [List.map_cons]
    rw [h x (by simp), ih (fun a ha => h a (by simp [ha]))]

theorem map_congr_all {α β : Type} (l : List α) (f g : α → β) (h : ∀ a ∈ l, f a = g a) :
    l.map f = l.map g := by
  induction l with
  | nil => rfl
  | cons x xs ih =>
    simp only [List.map_cons]
    rw [h x (by simp), ih (fun a ha => h a (by simp [ha]))]

theorem nodup_key_inj {α : Type} (k : α → String) (l : List α) (h : (l.map k).Nodup)
    (a b : α) (ha : a ∈ l) (hb : b ∈ l) (hk : k a = k b) : a = b := by
  induction l with
  | nil => simp at ha
  | cons x xs ih =>
    rw [List.map_cons, List.nodup_cons] at h
    rcases List.mem_cons.mp ha with rfl | ha2
    · rcases List.mem_cons.mp hb with rfl | hb2
      · rfl
      · exact absurd (hk ▸ List.mem_map_of_mem k hb2) h.1
    · rcases List.mem_cons.mp hb with rfl | hb2
      · exact absurd (hk ▸ List.mem_map_of_mem k ha2) h.1
      · exact ih h.2 ha2 hb2

theorem findAndUpdateFirst_eq_map {α : Type} (k : α → String) (key : String) (f : α → α)
    (l : List α) (h : (l.map k).Nodup) :
    (findAndUpdateFirst (fun a => k a == key) f l).2
      = l.map (fun a => if k a == key then f a else a) := by
  induction l with
  | nil => rfl
  | cons x xs ih =>
    rw [List.map_cons, List.nodup_cons] at h
    by_cases hx : (k x == key) = true
    · have hkey : k x = key := by simpa using hx
      simp only [findAndUpdateFirst, hx, if_true, List.map_cons]
      refine congrArg (List.cons (f x)) ?_
      refine (map_id_of_all xs _ ?_).symm
      intro a ha
      have hne2 : ¬ ((k a == key) = true) := by
        intro he
        have he2 : k a = key := by simpa using he
        exact h.1 (by rw [hkey, ← he2]; exact List.mem_map_of_mem k ha)
      simp [hne2]
    · simp only [findAndUpdateFirst, hx, List.map_cons]
      have hne2 : ¬ ((k x == key) = true) := hx
      simp [hne2, ih h.2]

/-- The item-status propagation loop over a snapshot of the order's items:
with globally distinct item ids, each stored item whose id occurs in the
snapshot ends with the new status, every other item is untouched. -/
theorem itemStatusLoop_spec (ns : String) :
    ∀ (L : List OrderItem) (pos : PosState),
    (∀ it ∈ L, it ∈ pos.orderItems) →
    ((pos.orderItems.map (fun i => i.id)).Nodup) →
    ((L.map (fun i => i.id)).Nodup) →
    (L.foldl (applyItemStatusLoop ns) pos).orderItems
      = pos.orderItems.map
          (fun x => if L.any (fun it => it.id == x.id) then { x with status := ns } else x) := by
  intro L
  induction L with
  | nil =>
    intro pos _ _ _
    simp only [List.foldl_nil, List.any_nil]
    exact (map_id_of_all _ _ (fun a _ => rfl)).symm
  | cons it L2 ih =>
    intro pos hsub hnodup hLnodup
    rw [List.map_cons, List.nodup_cons] at hLnodup
    have hitmem : it ∈ pos.orderItems := hsub it (by simp)
    have hL2any : ∀ x : OrderItem, x.id = it.id →
        (L2.any (fun y => y.id == x.id)) = false := by
      intro x hx
      cases hL2 : L2.any (fun y => y.id == x.id) with
      | false => rfl
      | true =>
        exfalso
        obtain ⟨y, hy, hbeq⟩ := List.any_eq_true.mp hL2
        have hyx : y.id = x.id := by simpa using hbeq
        exact hLnodup.1 (by rw [← hx, ← hyx]; exact List.mem_map_of_mem _ hy)
    rw [List.foldl_cons]
    by_cases hst : (it.status != ns) = true
    · have hupd : ((applyItemStatusLoop ns pos it)).orderItems
          = pos.orderItems.map
              (fun a => if a.id == it.id then { a with status := ns } else a) := by
        simp only [applyItemStatusLoop, hst, if_true]
        exact findAndUpdateFirst_eq_map (fun a => a.id) it.id _ pos.orderItems hnodup
      have hids : ((applyItemStatusLoop ns pos it)).orderItems.map (fun i => i.id)
          = pos.orderItems.map (fun i => i.id) := by
        rw [hupd, List.map_map]
        apply map_congr_all
        intro a _
        by_cases ha : a.id = it.id <;> simp [ha]
      have hsub1 : ∀ x ∈ L2, x ∈ (applyItemStatusLoop ns pos it).orderItems := by
        intro x hx
        have hxm : x ∈ pos.orderItems := hsub x (by simp [hx])
        have hne : ¬ ((x.id == it.id) = true) := by
          intro he
          have : x.id = it.id := by simpa using he
          exact hLnodup.1 (by rw [← this]; exact List.mem_map_of_mem _ hx)
        rw [hupd]
        have : (if x.id == it.id then ({ x with status := ns } : OrderItem) else x) = x := by
          simp [hne]
        rw [← this]
        exact List.mem_map_of_mem _ hxm
      have hnodup1 : ((applyItemStatusLoop ns pos it).orderItems.map (fun i => i.id)).Nodup := by
        rw [hids]; exact hnodup
      rw [ih (applyItemStatusLoop ns pos it) hsub1 hnodup1 hLnodup.2, hupd, List.map_map]
      apply map_congr_all
      intro x hxm
      by_cases hxid : (x.id == it.id) = true
      · have hxeq : x.id = it.id := by simpa using hxid
        have h1 : (L2.any (fun y => y.id == x.id)) = false := hL2any x hxeq
        have h2 : (it.id == x.id) = true := by simp [hxeq]
        simp [Function.comp, hxid, h1, h2, List.any_cons]
      · have hxne : x.id ≠ it.id := by simpa using hxid
        have h2 : (it.id == x.id) = false := by simp [Ne.symm hxne]
        simp [Function.comp, hxid, h2, List.any_cons]
    · have hseq : it.status = ns := by simpa using hst
      have hskip : applyItemStatusLoop ns pos it = pos := by
        simp [applyItemStatusLoop, hst]
      rw [hskip, ih pos (fun x hx => hsub x (by simp [hx])) hnodup hLnodup.2]
      apply map_congr_all
      intro x hxm
      by_cases hxid : (x.id == it.id) = true
      · have hxeq : x.id = it.id := by simpa using hxid
        have hxit : x = it := nodup_key_inj (fun i => i.id) pos.orderItems hnodup x it hxm hitmem hxeq
        have h1 : (L2.any (fun y => y.id == x.id)) = false := hL2any x hxeq
        have h2 : (it.id == x.id) = true := by simp [hxeq]
        have h3 : ({ x with status := ns } : OrderItem) = x := by
          rw [hxit]
          cases it
          simp_all
        simp [h1, h2, List.any_cons, h3]
      · have hxne : x.id ≠ it.id := by simpa using hxid
        have h2 : (it.id == x.id) = false := by simp [Ne.symm hxne]
        simp [h2, List.any_cons]

/-- `digitalOrder.paymentStatus || "pending"` is an invoice variant exactly
when `digitalOrder.paymentStatus || ""` is. -/
theorem currentPay_not_invoice (d : DigitalOrder)
    (h : isInvoiceVariant (jsOr "" d.paymentStatus) = false) :
    isInvoiceVariant (currentPaymentStatusOf d) = false := by
  unfold currentPaymentStatusOf
  unfold isInvoiceVariant jsOr at h ⊢
  cases hp : d.paymentStatus with
  | none => decide
  | some p =>
    rw [hp] at h
    by_cases he : (p == "") = true
    · simp only [he, if_true]
      decide
    · simp only [he, if_false] at h ⊢
      simpa using h

/-- C9: in the update pass, for an already-synced external order with a
changed status/payment observation, neither of which is an
invoice_generated variant, an external status outside the mapped set
{pending, confirmed, preparing, completed, cancelled} sets every item of
the linked native order to status `new`. -/
theorem c9_unmapped_status_sets_items_new (st : SyncState) (doc : CustomerDoc) (d : DigitalOrder)
    (pid : String) (po : Order)
    (hnodup : (st.pos.orderItems.map (fun i => i.id)).Nodup)
    (hsync : d.syncedToPOS = true)
    (hpid : jsOrNone d.posOrderId = some pid)
    (hpo : getOrder st.pos pid = some po)
    (hchanged : (obsStatusChanged st (syntheticId doc d) d
        || obsPayChanged st (syntheticId doc d) d) = true)
    (hpay : isInvoiceVariant (jsOr "" d.paymentStatus) = false)
    (hstat : isInvoiceVariant d.status = false)
    (h1 : (d.status == "pending") = false) (h2 : (d.status == "confirmed") = false)
    (h3 : (d.status == "preparing") = false) (h4 : (d.status == "completed") = false)
    (h5 : (d.status == "cancelled") = false) :
    ∀ it ∈ getOrderItems (updateOrderObservation st doc d).1.pos pid, it.status = "new" := by
  have hpayC : isInvoiceVariant (currentPaymentStatusOf d) = false := currentPay_not_invoice d hpay
  have hmap : statusMapping d.status = "new" := by
    simp [statusMapping, h1, h2, h3, h4, h5]
  have hpoid : po.id = pid := by
    have hfind : st.pos.orders.find? (fun o2 => o2.id == pid) = some po := hpo
    simpa using List.find?_some hfind
  have hupd : (updatePOSOrderStatus st d).pos
      = (getOrderItems st.pos po.id).foldl (applyItemStatusLoop (statusMapping d.status)) st.pos := by
    simp only [updatePOSOrderStatus, hpid, hpo, hpay, hstat]
    rfl
  simp only [updateOrderObservation, hsync, Bool.not_true, Bool.false_eq_true, if_false,
    hpayC, Bool.false_and, hchanged, if_true]
  intro x hx
  have hx2 : x ∈ getOrderItems ((updatePOSOrderStatus st d).pos) pid := hx
  rw [hupd, hpoid] at hx2
  have hLsub : List.Sublist ((getOrderItems st.pos pid).map (fun i : OrderItem => i.id))
      (st.pos.orderItems.map (fun i : OrderItem => i.id)) :=
    (List.filter_sublist st.pos.orderItems).map (fun i : OrderItem => i.id)
  have hLnodup : ((getOrderItems st.pos pid).map (fun i : OrderItem => i.id)).Nodup :=
    hnodup.sublist hLsub
  have hspec := itemStatusLoop_spec (statusMapping d.status) (getOrderItems st.pos pid) st.pos
    (fun it hit => (List.mem_filter.mp hit).1) hnodup hLnodup
  unfold getOrderItems at hx2 hspec
  rw [hspec] at hx2
  obtain ⟨hxmem, hxoid⟩ := List.mem_filter.mp hx2
  obtain ⟨y, hy, hyx⟩ := List.mem_map.mp hxmem
  by_cases hany : ((st.pos.orderItems.filter (fun i => i.orderId == pid)).any (fun it => it.id == y.id)) = true
  · rw [if_pos hany] at hyx
    rw [← hyx, hmap]
  · rw [if_neg hany] at hyx
    exfalso
    apply hany
    apply List.any_eq_true.mpr
    refine ⟨y, ?_, by simp⟩
    apply List.mem_filter.mpr
    refine ⟨hy, ?_⟩
    rw [hyx]
    exact hxoid

def c9Order : Order :=
  { id := "p1", tableId := none, orderType := "dine-in", status := "ongoing",
    total := 200, customerName := none, customerPhone := none, paymentMode := none }

def c9ItemA : OrderItem :=
  { id := "i1", orderId := "p1", menuItemId := "m1", name := "Dal", quantity := 1,
    price := 100, notes := none, status := "pending", isVeg := true }

def c9ItemB : OrderItem :=
  { id := "i2", orderId := "p1", menuItemId := "m2", name := "Rice", quantity := 1,
    price := 100, notes := none, status := "preparing", isVeg := true }

def c9D : DigitalOrder :=
  { oid := some "x1", orderDate := "2024-01-01", status := "weird",
    paymentStatus := some "pending", paymentMethod := none, syncedToPOS := true,
    posOrderId := some "p1", tableNumber := none, floorNumber := none,
    items := [], total := 200, tax := 0 }

def c9Doc : CustomerDoc :=
  { docId := "c1", customerName := none, customerPhone := none, orders := [c9D] }

def c9State : SyncState :=
  { pos := { tables := [], orders := [c9Order], orderItems := [c9ItemA, c9ItemB],
             menuItems := [], floors := [], inventoryItems := [], recipes := [],
             recipeIngredients := [], invoices := [], wastages := [], customers := [],
             nextId := 0 },
    customerDocs := [c9Doc], processed := [],
    statusMap := [("x1", "pending")], payMap := [("x1", "pending")] }

theorem c9_unmapped_status_sets_items_new_witness :
    (c9State.pos.orderItems.map (fun i => i.id)).Nodup
    ∧ (obsStatusChanged c9State (syntheticId c9Doc c9D) c9D
        || obsPayChanged c9State (syntheticId c9Doc c9D) c9D) = true
    ∧ ∀ it ∈ getOrderItems (updateOrderObservation c9State c9Doc c9D).1.pos "p1",
        it.status = "new" :=
  ⟨by decide, rfl,
    c9_unmapped_status_sets_items_new c9State c9Doc c9D "p1" c9Order
      (by decide) rfl rfl rfl rfl rfl rfl rfl rfl rfl rfl rfl⟩

/-! ## C5: digital-menu ingest exactly-once -/

def ingStep (doc : CustomerDoc) (acc : SyncState × Nat) (d : DigitalOrder) : SyncState × Nat :=
  let r := ingestOrder acc.1 doc d
  (r.1, acc.2 + r.2)

def updStep (doc : CustomerDoc) (acc : SyncState × Nat) (d : DigitalOrder) : SyncState × Nat :=
  let r := updateOrderObservation acc.1 doc d
  (r.1, acc.2 + r.2)

theorem ordersLen_checkoutOrder (s : PosState) (id : String) (pm : Option String) :
    ((checkoutOrder s id pm).2).orders.length = s.orders.length := by
  simp [checkoutOrder, length_findAndUpdateFirst]

theorem ordersLen_updateOrderTotal (s : PosState) (id : String) (t : ℚ) :
    ((updateOrderTotal s id t).2).orders.length = s.orders.length := by
  simp [updateOrderTotal, length_findAndUpdateFirst]

theorem orders_updateTableOrder (s : PosState) (id : String) (oid : Option String) :
    ((updateTableOrder s id oid).2).orders = s.orders := rfl

theorem orders_updateCustomerTableStatus (s : PosState) (p t : String) :
    (updateCustomerTableStatus s p t).orders = s.orders := rfl

theorem orders_createOrderItem (s : PosState) (it : InsertOrderItem) :
    ((createOrderItem s it).2).orders = s.orders := rfl

theorem ordersLen_createOrder (s : PosState) (io : InsertOrder) :
    ((createOrder s io).2).orders.length = s.orders.length + 1 := by
  simp [createOrder]

theorem orders_applyItemStatusLoop (ns : String) (p : PosState) (it : OrderItem) :
    (applyItemStatusLoop ns p it).orders = p.orders := by
  by_cases h : (it.status != ns) = true
  · simp [applyItemStatusLoop, h, updateOrderItemStatus]
  · simp [applyItemStatusLoop, h]

theorem frame_autoCheckout (st : SyncState) (d : DigitalOrder) (po : Order) :
    (autoCheckoutAndGenerateInvoice st d po).customerDocs = st.customerDocs ∧
    (autoCheckoutAndGenerateInvoice st d po).processed = st.processed ∧
    (autoCheckoutAndGenerateInvoice st d po).pos.orders.length = st.pos.orders.length := by
  simp only [autoCheckoutAndGenerateInvoice]
  cases hco : (checkoutOrder st.pos po.id (some ((jsOr "cash" d.paymentMethod).toLower))).1 with
  | none =>
    dsimp only
    exact ⟨rfl, rfl, ordersLen_checkoutOrder st.pos po.id _⟩
  | some co =>
    dsimp only
    cases ht : jsOrNone co.tableId with
    | none =>
      dsimp only
      cases hp : jsOrNone co.customerPhone <;> dsimp only <;>
        exact ⟨rfl, rfl, ordersLen_checkoutOrder st.pos po.id _⟩
    | some tid =>
      dsimp only
      cases hp : jsOrNone co.customerPhone <;> dsimp only <;>
        exact ⟨rfl, rfl, ordersLen_checkoutOrder st.pos po.id _⟩

theorem frame_updatePOSOrderStatus (st : SyncState) (d : DigitalOrder) :
    (updatePOSOrderStatus st d).customerDocs = st.customerDocs ∧
    (updatePOSOrderStatus st d).processed = st.processed ∧
    (updatePOSOrderStatus st d).pos.orders.length = st.pos.orders.length := by
  simp only [updatePOSOrderStatus]
  cases hpid : jsOrNone d.posOrderId with
  | none => exact ⟨rfl, rfl, rfl⟩
  | some pid =>
    dsimp only
    cases hpo : getOrder st.pos pid with
    | none => exact ⟨rfl, rfl, rfl⟩
    | some po =>
      dsimp only
      by_cases hinv :
          (isInvoiceVariant (jsOr "" d.paymentStatus) || isInvoiceVariant d.status) = true
      · rw [if_pos hinv]
        exact frame_autoCheckout st d po
      · rw [if_neg hinv]
        refine ⟨rfl, rfl, ?_⟩
        have hall : (List.foldl (applyItemStatusLoop (statusMapping d.status)) st.pos
            (getOrderItems st.pos po.id)).orders = st.pos.orders :=
          @foldl_preserves OrderItem PosState (applyItemStatusLoop (statusMapping d.status))
            (fun p => p.orders = st.pos.orders)
            (fun b a hb => (orders_applyItemStatusLoop _ b a).trans hb)
            (getOrderItems st.pos po.id) st.pos rfl
        exact congrArg List.length hall

theorem frame_updateOrderObservation (st : SyncState) (doc : CustomerDoc) (d : DigitalOrder) :
    (updateOrderObservation st doc d).1.customerDocs = st.customerDocs ∧
    (updateOrderObservation st doc d).1.processed = st.processed ∧
    (updateOrderObservation st doc d).1.pos.orders.length = st.pos.orders.length := by
  simp only [updateOrderObservation]
  split
  · exact ⟨rfl, rfl, rfl⟩
  · split
    · exact frame_updatePOSOrderStatus st d
    · split
      · exact frame_updatePOSOrderStatus st d
      · split
        · exact ⟨rfl, rfl, rfl⟩
        · exact ⟨rfl, rfl, rfl⟩

theorem frame_updStep_fold (doc : CustomerDoc) :
    ∀ (l : List DigitalOrder) (b : SyncState × Nat),
      ((l.foldl (updStep doc) b).1.customerDocs = b.1.customerDocs ∧
       (l.foldl (updStep doc) b).1.processed = b.1.processed ∧
       (l.foldl (updStep doc) b).1.pos.orders.length = b.1.pos.orders.length) := by
  intro l
  induction l with
  | nil => intro b; exact ⟨rfl, rfl, rfl⟩
  | cons d ds ih =>
    intro b
    obtain ⟨x1, x2, x3⟩ := ih (updStep doc b d)
    obtain ⟨y1, y2, y3⟩ := frame_updateOrderObservation b.1 doc d
    exact ⟨x1.trans y1, x2.trans y2, x3.trans y3⟩

theorem frame_runPass_update (st : SyncState) (docs : List CustomerDoc) :
    ((runPass updateOrderObservation st docs).1.customerDocs = st.customerDocs ∧
     (runPass updateOrderObservation st docs).1.processed = st.processed ∧
     (runPass updateOrderObservation st docs).1.pos.orders.length = st.pos.orders.length) := by
  have hmain : ∀ (l : List CustomerDoc) (b : SyncState × Nat),
      ((l.foldl (fun acc doc => doc.orders.foldl (updStep doc) acc) b).1.customerDocs
          = b.1.customerDocs ∧
       (l.foldl (fun acc doc => doc.orders.foldl (updStep doc) acc) b).1.processed
          = b.1.processed ∧
       (l.foldl (fun acc doc => doc.orders.foldl (updStep doc) acc) b).1.pos.orders.length
          = b.1.pos.orders.length) := by
    intro l
    induction l with
    | nil => intro b; exact ⟨rfl, rfl, rfl⟩
    | cons c cs ih =>
      intro b
      obtain ⟨x1, x2, x3⟩ := ih (c.orders.foldl (updStep c) b)
      obtain ⟨y1, y2, y3⟩ := frame_updStep_fold c c.orders b
      exact ⟨x1.trans y1, x2.trans y2, x3.trans y3⟩
  exact hmain (docs.filter (fun c => !c.orders.isEmpty)) (st, 0)

theorem ingest_skip_fold (doc : CustomerDoc) :
    ∀ (l : List DigitalOrder), (∀ d ∈ l, d.syncedToPOS = true) →
      ∀ (b : SyncState × Nat), l.foldl (ingStep doc) b = b := by
  intro l
  induction l with
  | nil => intro _ b; rfl
  | cons d ds ih =>
    intro h b
    have hd : d.syncedToPOS = true := h d (List.mem_cons_self _ _)
    have hstep : ingStep doc b d = b := by
      simp [ingStep, ingestOrder, hd]
    rw [List.foldl_cons, hstep]
    exact ih (fun x hx => h x (List.mem_cons_of_mem _ hx)) b

theorem ingest_skip_runPass (st : SyncState) (docs : List CustomerDoc)
    (h : ∀ c ∈ docs, ∀ d ∈ c.orders, d.syncedToPOS = true) :
    runPass ingestOrder st docs = (st, 0) := by
  have hmain : ∀ (l : List CustomerDoc), (∀ c ∈ l, ∀ d ∈ c.orders, d.syncedToPOS = true) →
      ∀ (b : SyncState × Nat),
        l.foldl (fun acc doc => doc.orders.foldl (ingStep doc) acc) b = b := by
    intro l
    induction l with
    | nil => intro _ b; rfl
    | cons c cs ih =>
      intro h2 b
      rw [List.foldl_cons, ingest_skip_fold c c.orders (h2 c (List.mem_cons_self _ _)) b]
      exact ih (fun x hx => h2 x (List.mem_cons_of_mem _ hx)) b
  exact hmain (docs.filter (fun c => !c.orders.isEmpty))
    (fun c hc => h c (List.mem_filter.mp hc).1) (st, 0)

theorem itemsFold_orders (f : PosState × ℚ → DigitalOrderItem → PosState × ℚ)
    (hf : ∀ acc it, (f acc it).1.orders = acc.1.orders) :
    ∀ (l : List DigitalOrderItem) (acc : PosState × ℚ),
      (l.foldl f acc).1.orders = acc.1.orders := by
  intro l
  induction l with
  | nil => intro acc; rfl
  | cons x xs ih => intro acc; exact (ih (f acc x)).trans (hf acc x)

theorem ordersLen_convert (pos : PosState) (d : DigitalOrder) (cn cp : Option String) :
    (convertAndCreatePOSOrder pos d cn cp).2.orders.length = pos.orders.length + 1 := by
  simp only [convertAndCreatePOSOrder]
  cases hP : jsOrNone cp <;> dsimp only <;>
    simp only [orders_updateCustomerTableStatus, ordersLen_updateOrderTotal] <;>
    refine ((congrArg List.length (itemsFold_orders _ ?_ d.items _)).trans ?_) <;>
    first
      | (intro acc it; rfl)
      | (dsimp only
         cases hT : jsOrNone d.tableNumber <;> dsimp only
         case none =>
           simp only [jsOrNone]
           rw [ordersLen_createOrder]
         case some tn =>
           cases hFT : findTableByNumberAndFloor pos tn d.floorNumber <;> dsimp only
           case none =>
             simp only [jsOrNone]
             rw [ordersLen_createOrder]
           case some table =>
             by_cases hfree : (table.status == "free") = true <;>
               simp only [hfree, if_true, if_false] <;>
               cases hJ : jsOrNone (some table.id) <;> dsimp only <;>
               (first
                 | (rw [ordersLen_createOrder])
                 | (rw [orders_updateTableOrder, ordersLen_createOrder])) <;>
               rfl)

theorem ingest_fire (st : SyncState) (doc : CustomerDoc) (d : DigitalOrder)
    (hsync : d.syncedToPOS = false)
    (hstat : d.status = "pending" ∨ d.status = "confirmed")
    (hproc : st.processed.contains (syntheticId doc d) = false) :
    (ingestOrder st doc d).1.pos =
        (convertAndCreatePOSOrder st.pos d doc.customerName doc.customerPhone).2 ∧
    (ingestOrder st doc d).1.processed = st.processed ++ [syntheticId doc d] ∧
    (ingestOrder st doc d).1.customerDocs =
        markSynced st.customerDocs doc.docId d.oid
          (convertAndCreatePOSOrder st.pos d doc.customerName doc.customerPhone).1 := by
  have hst : (d.status != "pending" && d.status != "confirmed") = false := by
    rcases hstat with h | h <;> rw [h] <;> rfl
  simp only [ingestOrder]
  rw [hsync, hst, hproc]
  exact ⟨rfl, rfl, rfl⟩

theorem runPass_ingest_singleton (st : SyncState) (doc : CustomerDoc) (d : DigitalOrder)
    (hord : doc.orders = [d]) :
    runPass ingestOrder st [doc] = ingStep doc (st, 0) d := by
  have hfil : List.filter (fun c => !c.orders.isEmpty) [doc] = [doc] := by
    simp [hord]
  unfold runPass
  rw [hfil]
  simp only [List.foldl_cons, List.foldl_nil]
  rw [hord]
  rfl

theorem markSynced_singleton (doc : CustomerDoc) (d : DigitalOrder) (pid : String)
    (hord : doc.orders = [d]) :
    markSynced [doc] doc.docId d.oid pid
      = [{ doc with orders := [{ d with syncedToPOS := true, posOrderId := some pid }] }] := by
  have hpred : (doc.docId == doc.docId && doc.orders.any (fun o => o.oid == d.oid)) = true := by
    rw [hord]; simp
  simp only [markSynced, findAndUpdateFirst, hpred, if_true, hord]
  simp

theorem syncOrders_fst (s : SyncState) :
    (syncOrders s).1
      = (runPass updateOrderObservation (runPass ingestOrder s s.customerDocs).1
          ((runPass ingestOrder s s.customerDocs).1.customerDocs)).1 := rfl

/-- C5: digital-menu ingest is exactly-once.  For an external order that is
not yet synced, carries an ingestible status (`pending`/`confirmed`) and
whose synthetic id is not in the processed set, the first `syncOrders` run
creates exactly one native POS order, records the synthetic id as
processed and persists `syncedToPOS` on the external record; a second
`syncOrders` run in sequence is skipped for that id (persisted flag plus
processed set) and creates no further native order. -/
theorem c5_ingest_exactly_once (st : SyncState) (doc : CustomerDoc) (d : DigitalOrder)
    (hdocs : st.customerDocs = [doc])
    (hord : doc.orders = [d])
    (hsync : d.syncedToPOS = false)
    (hstat : d.status = "pending" ∨ d.status = "confirmed")
    (hproc : st.processed.contains (syntheticId doc d) = false) :
    (syncOrders st).1.pos.orders.length = st.pos.orders.length + 1 ∧
    syntheticId doc d ∈ (syncOrders st).1.processed ∧
    (∀ c ∈ (syncOrders st).1.customerDocs, ∀ d2 ∈ c.orders, d2.syncedToPOS = true) ∧
    (syncOrders (syncOrders st).1).1.pos.orders.length = st.pos.orders.length + 1 := by
  obtain ⟨hf1, hf2, hf3⟩ := ingest_fire st doc d hsync hstat hproc
  have hingpass : runPass ingestOrder st st.customerDocs = ingStep doc (st, 0) d := by
    rw [hdocs]
    exact runPass_ingest_singleton st doc d hord
  have hsync1 : (syncOrders st).1
      = (runPass updateOrderObservation (ingestOrder st doc d).1
          ((ingestOrder st doc d).1.customerDocs)).1 := by
    rw [syncOrders_fst st, hingpass]
    rfl
  obtain ⟨hu1, hu2, hu3⟩ := frame_runPass_update (ingestOrder st doc d).1
    ((ingestOrder st doc d).1.customerDocs)
  have hc1 : (syncOrders st).1.pos.orders.length = st.pos.orders.length + 1 := by
    rw [hsync1]
    have h3 : (ingestOrder st doc d).1.pos.orders.length = st.pos.orders.length + 1 := by
      rw [hf1, ordersLen_convert]
    rw [hu3, h3]
  have hc2 : syntheticId doc d ∈ (syncOrders st).1.processed := by
    rw [hsync1, hu2, hf2]
    simp
  have hms := markSynced_singleton doc d
    ((convertAndCreatePOSOrder st.pos d doc.customerName doc.customerPhone).1) hord
  have hc3 : ∀ c ∈ (syncOrders st).1.customerDocs, ∀ d2 ∈ c.orders, d2.syncedToPOS = true := by
    rw [hsync1, hu1, hf3, hdocs, hms]
    simp
  have hskip : runPass ingestOrder (syncOrders st).1 ((syncOrders st).1.customerDocs)
      = ((syncOrders st).1, 0) :=
    ingest_skip_runPass _ _ hc3
  obtain ⟨hv1, hv2, hv3⟩ := frame_runPass_update (syncOrders st).1 ((syncOrders st).1.customerDocs)
  have hc4 : (syncOrders (syncOrders st).1).1.pos.orders.length = st.pos.orders.length + 1 := by
    rw [syncOrders_fst (syncOrders st).1, hskip]
    dsimp only
    rw [hv3, hc1]
  exact ⟨hc1, hc2, hc3, hc4⟩

def c5D : DigitalOrder :=
  { oid := some "y1", orderDate := "2024-02-02", status := "pending",
    paymentStatus := some "pending", paymentMethod := none, syncedToPOS := false,
    posOrderId := none, tableNumber := none, floorNumber := none,
    items := [], total := 100, tax := 0 }

def c5Doc : CustomerDoc :=
  { docId := "cd1", customerName := none, customerPhone := none, orders := [c5D] }

def c5State : SyncState :=
  { pos := { tables := [], orders := [], orderItems := [], menuItems := [], floors := [],
             inventoryItems := [], recipes := [], recipeIngredients := [], invoices := [],
             wastages := [], customers := [], nextId := 0 },
    customerDocs := [c5Doc], processed := [], statusMap := [], payMap := [] }

theorem c5_ingest_exactly_once_witness :
    c5State.customerDocs = [c5Doc] ∧
    c5State.processed.contains (syntheticId c5Doc c5D) = false ∧
    ((syncOrders c5State).1.pos.orders.length = c5State.pos.orders.length + 1 ∧
     syntheticId c5Doc c5D ∈ (syncOrders c5State).1.processed ∧
     (∀ c ∈ (syncOrders c5State).1.customerDocs, ∀ d2 ∈ c.orders, d2.syncedToPOS = true) ∧
     (syncOrders (syncOrders c5State).1).1.pos.orders.length
        = c5State.pos.orders.length + 1) :=
  ⟨rfl, rfl, c5_ingest_exactly_once c5State c5Doc c5D rfl rfl rfl (Or.inl rfl) rfl⟩
